import Mathlib

/-!
Verification development for the DynoControl throttle-mapper firmware
(`main.cpp` / `HAL.h`): a shallow embedding of the serial line assembler
(`checkSerialRX`), the tokenizer (`nextWord`), the command interpreter
(`executeCommand`), the ramp/wait state machine (`primaryFSM`) and the
surrounding poll loop (`Application_loop`), together with theorems about
the command protocol and ramp control.

Machine integers are modelled as `Nat`/`Int`; the one place where C
unsigned conversion matters behaviourally (`uint64_t time = arg2.toInt()`)
is modelled with an explicit reduction modulo `2 ^ 64`.  The serial output
channel is abstracted as a list of emission events (`Emit`): the concrete
marker characters (`S_E_CHAR`, `S_R_CHAR`, `S_HP_CHAR`, `S_D_CHAR`) are
`#define`s in a header that is not part of the sources; only their
identity matters to the properties proved here.
-/

/-! ### Interval timer

`Timer.h` is not among the sources (only its callers are).
Modelled from the spec: "Timer: duration, deadline, running.
`construct(duration)`, `start()` (sets deadline = now + duration),
`expired() -> bool`.  `expired()` is true iff never armed-and-still-
counting, or current time >= deadline; `duration == 0` means always
expired."  Time (`millis()`) is passed explicitly as `now : Nat`. -/
structure SWTimer where
  duration : Nat
  deadline : Nat
  running : Bool
deriving DecidableEq, Repr

/-- Modelled from the spec: a freshly constructed timer has the given
duration and has never been armed, so it reports expired. -/
def SWTimer_construct (d : Nat) : SWTimer :=
  { duration := d, deadline := 0, running := false }

/-- Modelled from the spec: `start()` sets `deadline = now + duration`
and marks the timer as running. -/
def SWTimer_start (t : SWTimer) (now : Nat) : SWTimer :=
  { duration := t.duration, deadline := now + t.duration, running := true }

/-- Modelled from the spec: expired iff never armed, or `now >= deadline`. -/
def SWTimer_expired (t : SWTimer) (now : Nat) : Bool :=
  !t.running || decide (t.deadline ≤ now)

/-! ### Constants

`ASCII_*` are the usual ASCII codes.  `CMD_CHAR_LEN`, `S_TIMEOUT`,
`ADC_SETTLE_TIME`, `S_DATA_TIMESTEP`, `ECHO_EN` are `#define`s from the
missing `Application.h` header; their concrete values do not matter to
any claim.  Modelled from the spec: "fixed-capacity buffer", "inactivity
timer", "settling interval", "fixed cadence", "optional echo". -/

def ASCII_CR : Char := '\r'

def ASCII_LF : Char := '\n'

def ASCII_SPACE : Char := ' '

/-- Modelled from the spec: the fixed capacity of the command-line buffer
(`CMD_CHAR_LEN`); the concrete value is not in the sources. -/
def CMD_CHAR_LEN : Nat := 64

/-- Modelled from the spec: the serial inactivity timeout (`S_TIMEOUT`);
the concrete value (positive) is not in the sources. -/
def S_TIMEOUT : Nat := 100

/-- Modelled from the spec: ADC settling interval (`ADC_SETTLE_TIME`). -/
def ADC_SETTLE_TIME : Nat := 50

/-- Modelled from the spec: telemetry cadence (`S_DATA_TIMESTEP`). -/
def S_DATA_TIMESTEP : Nat := 100

/-- `MS_IN_SECONDS`, used for the watchdog timer. -/
def MS_IN_SECONDS : Nat := 1000

/-- Modelled from the spec: "Optional echo of the raw accumulated line";
disabled here, no claim depends on it. -/
def ECHO_EN : Bool := false

/-- `POT_MAX_R` from `HAL.h`: maximum resistance of the X9C104. -/
def POT_MAX_R : Nat := 100000

/-! ### External potentiometer driver (X9C10X)

The driver is an external collaborator: `setPosition` stores a wiper
position, clamped to at most 99 (the X9C10X has positions 0..99); a C
`int` argument is first converted to the `uint8_t` parameter type
(reduction modulo 256).  `getPosition` returns the stored position;
`getOhm` derives the resistance from it (exact rounding immaterial). -/

def setPositionI (x : Int) : Nat :=
  min ((x % (256 : Int)).toNat) 99

def potOhm (pos : Nat) : Nat :=
  POT_MAX_R * pos / 99

/-! ### Application state

The `Application` struct.  The struct declaration lives in the missing
current `Application.h`; every field below is taken from its uses in
`Application_construct`, `Application_loop`, `primaryFSM`,
`checkSerialRX` and `executeCommand`.  `pot_v` is the raw analog sample
(the C code scales it to a float voltage; no claim depends on the
scaling).  `command` is the Arduino `String` holding the last assembled
line. -/

inductive AppStates where
  | Idle
  | Executing
  | Linear
  | Waiting
deriving DecidableEq, Repr

structure App where
  watchdog_timer : SWTimer
  pot_test_timer : SWTimer
  wait_cmd_timer : SWTimer
  linear_cmd_timer : SWTimer
  adc_settling_timer : SWTimer
  data_step_timer : SWTimer
  serial_timeout_timer : SWTimer
  pot_v : Nat
  pot_ohms : Nat
  pot_pos : Nat
  mes_timestamp : Nat
  target_pos : Nat
  ramping_time : Nat
  steps : Nat
  new_value_flag : Bool
  cmd_finished_flag : Bool
  cmd_high_priority : Bool
  command : List Char
  appState : AppStates
deriving DecidableEq, Repr

/-- `Application_construct` from `main.cpp`. -/
def Application_construct : App where
  watchdog_timer := SWTimer_construct MS_IN_SECONDS
  pot_test_timer := SWTimer_construct 100
  wait_cmd_timer := SWTimer_construct 0
  linear_cmd_timer := SWTimer_construct 0
  adc_settling_timer := SWTimer_construct ADC_SETTLE_TIME
  data_step_timer := SWTimer_construct S_DATA_TIMESTEP
  serial_timeout_timer := SWTimer_construct S_TIMEOUT
  pot_v := 0
  pot_ohms := 0
  pot_pos := 0
  mes_timestamp := 0
  target_pos := 0
  ramping_time := 0
  steps := 0
  new_value_flag := true
  cmd_finished_flag := false
  cmd_high_priority := false
  command := []
  appState := AppStates.Idle

/-! ### String helpers (Arduino `String` / C library semantics) -/

/-- Separators recognised by the tokenizer. -/
def isSep (c : Char) : Bool :=
  c == ASCII_LF || c == ASCII_SPACE

/-- ASCII `tolower` (code points 65..90 map to 97..122), applied
characterwise by `String::toLowerCase`. -/
def toLowerChar (c : Char) : Char :=
  if 65 ≤ c.toNat ∧ c.toNat ≤ 90 then Char.ofNat (c.toNat + 32) else c

def toLowerList (s : List Char) : List Char :=
  s.map toLowerChar

/-- `isNumeric` from `HAL.h`: only digits and `-` (loose validation). -/
def isNumeric (s : List Char) : Bool :=
  s.all (fun c => c.isDigit || c == '-')

/-- Whitespace skipped by `atol` (`isspace`). -/
def isAtolSpace (c : Char) : Bool :=
  c == ' ' || c == '\t' || c == '\n' || c == '\x0b' || c == '\x0c' || c == '\r'

/-- Value of the leading digit run (stops at the first non-digit). -/
def leadingNat : List Char → Nat → Nat
  | [], acc => acc
  | c :: cs, acc => if c.isDigit then leadingNat cs (acc * 10 + (c.toNat - 48)) else acc

/-- Arduino `String::toInt` = C `atol`: skip whitespace, optional single
sign, then the leading digit run; 0 when there are no digits.  Modelled
over mathematical integers (claim-relevant inputs are far from the
32-bit `long` overflow). -/
def toInt (s : List Char) : Int :=
  let s1 := s.dropWhile isAtolSpace
  match s1 with
  | '-' :: r => -(leadingNat r 0 : Int)
  | '+' :: r => (leadingNat r 0 : Int)
  | _ => (leadingNat s1 0 : Int)

/-- C conversion of a signed value to `uint64_t`: reduction mod `2^64`. -/
def toUInt64 (i : Int) : Nat :=
  (i % ((2 : Int) ^ 64)).toNat

/-- The sentinel returned by the tokenizer when no word is found. -/
def NULLSTR : List Char := ['N', 'U', 'L', 'L']

/-! ### Tokenizer (`nextWord`)

The C function keeps a `static unsigned int cur`; the cursor is threaded
explicitly here.  The scan is the two-state FSM of the source: from
`cur`, skip separators (staying in `Spaces`); at the first non-separator
`cur` is moved there and the scan switches to `Reading`; the first
separator strictly after that point ends the word, which is returned
with the cursor moved past that separator.  If the scan runs off the end
of the line it returns `"NULL"` (from `Spaces` with `cur` untouched;
from `Reading` with `cur` at the word start). -/

def nextWordCore (input : List Char) (cur : Nat) : List Char × Nat :=
  if input.length ≤ cur then (NULLSTR, cur)
  else
    let rest := input.drop cur
    let rest2 := rest.dropWhile isSep
    if rest2 = [] then (NULLSTR, cur)
    else
      let j := cur + (rest.takeWhile isSep).length
      let w := rest2.takeWhile (fun c => !isSep c)
      if rest2.dropWhile (fun c => !isSep c) = [] then (NULLSTR, j)
      else (w, j + w.length + 1)

/-- `nextWord(input, reset)` with the static cursor passed explicitly. -/
def nextWord (input : List Char) (cur : Nat) (reset : Bool) : List Char × Nat :=
  nextWordCore input (if reset then 0 else cur)

/-! ### Serial output events -/

inductive Emit where
  /-- `serialPrintChar(S_E_CHAR)`: end-of-command marker. -/
  | endMarker
  /-- `serialPrintChar(S_R_CHAR)`: command-received marker. -/
  | recvMarker
  /-- `serialPrintChar(S_HP_CHAR)`: high-priority marker. -/
  | hpMarker
  /-- `serialPrintData`: one telemetry line. -/
  | dataLine
  /-- `Serial.println(text)`: a textual message (rejections, echo). -/
  | msg (text : List Char)
deriving DecidableEq, Repr

/-- Rejection messages of `executeCommand`. -/
def msgUnknown : List Char := ("  Unknown command type").toList

def msgThrottleOOB : List Char := ("  Throttle out of bounds").toList

def msgTimeOOB : List Char := ("  Time out of bounds").toList

def msgBadArgT : List Char := ("  Bad argument for command 't'").toList

def msgBadArgS : List Char := ("  Bad argument for command 's'").toList

def msgBadArgW : List Char := ("  Bad argument for command 'w'").toList

/-- `output_text` handling at the end of `executeCommand`: the message is
printed iff it differs from the initial `"Fail"`, modelled as `Option`. -/
def optEmit : Option (List Char) → List Emit
  | none => []
  | some m => [Emit.msg m]

/-! ### Command interpreter (`executeCommand`)

Faithful to the `switch` in `HAL.h`.  `pot` is the external driver's
wiper position; `n` is `millis()` at execution time (read inside
`SWTimer_start`).  The result carries the updated application, the
updated wiper position and the optional `output_text`. -/

structure ExecOut where
  app : App
  pot : Nat
  msg : Option (List Char)
deriving DecidableEq, Repr

def executeCommand (app : App) (pot : Nat) (input0 : List Char) (n : Nat) : ExecOut :=
  let input := toLowerList input0
  let r0 := nextWord input 0 true
  let cmd_type := r0.1.headD (Char.ofNat 0)
  if cmd_type = 't' then
    let r1 := nextWord input r0.2 false
    let arg1 := r1.1
    let r2 := nextWord input r1.2 false
    let arg2 := r2.1
    if isNumeric arg1 then
      let target : Int := toInt arg1
      if 0 ≤ target ∧ target < 100 then
        if isNumeric arg2 then
          let time : Nat := toUInt64 (toInt arg2)
          if 0 < time then
            let steps : Nat := (target - (app.pot_pos : Int)).natAbs
            let step_time : Nat := time / steps
            let app :=
              { app with
                target_pos := target.toNat
                ramping_time := time
                steps := steps
                linear_cmd_timer := SWTimer_start (SWTimer_construct step_time) n }
            { app := app, pot := pot, msg := none }
          else { app := app, pot := pot, msg := some msgTimeOOB }
        else if arg2 = NULLSTR then
          { app := app, pot := setPositionI target, msg := none }
        else { app := app, pot := pot, msg := none }
      else { app := app, pot := pot, msg := some msgThrottleOOB }
    else { app := app, pot := pot, msg := some msgBadArgT }
  else if cmd_type = 's' then
    let r1 := nextWord input r0.2 false
    let arg1 := r1.1
    if isNumeric arg1 then
      let new_pos : Int := (app.pot_pos : Int) + toInt arg1
      if 0 ≤ new_pos ∧ new_pos < 100 then
        { app := app, pot := setPositionI new_pos, msg := none }
      else { app := app, pot := pot, msg := some msgThrottleOOB }
    else { app := app, pot := pot, msg := some msgBadArgS }
  else if cmd_type = 'w' then
    let r1 := nextWord input r0.2 false
    let arg1 := r1.1
    if isNumeric arg1 then
      let time : Int := toInt arg1
      if 0 < time then
        { app := { app with wait_cmd_timer := SWTimer_start (SWTimer_construct time.toNat) n },
          pot := pot, msg := none }
      else { app := app, pot := pot, msg := some msgTimeOOB }
    else { app := app, pot := pot, msg := some msgBadArgW }
  else if cmd_type = 'r' then
    { app := { app with new_value_flag := true }, pot := pot, msg := none }
  else if cmd_type = 'q' then
    { app := Application_construct, pot := setPositionI 0, msg := none }
  else
    { app := app, pot := pot, msg := some msgUnknown }

/-! ### Priority path and line assembler -/

/-- `checkPriority` from `HAL.h`: compares the raw (not lower-cased)
first byte of the assembled buffer against `'q'`. -/
def checkPriority (app : App) (cmd : List Char) : App :=
  if cmd.headD (Char.ofNat 0) = 'q' then { app with cmd_high_priority := true }
  else app

/-- Result of one `checkSerialRX` poll. -/
structure RxOut where
  app : App
  buf : List Char
  valid : Bool
  ems : List Emit
deriving DecidableEq, Repr

/-- `checkSerialRX` from `HAL.h`.  The C statics `ser_i` and
`input[CMD_CHAR_LEN]` are passed as `buf`: the buffer is written
sequentially at `ser_i` and both are cleared together, so `ser_i` is
always `buf.length`.  `byteIn` is the at-most-one byte `Serial.read()`
yields this cycle (`none` when `!Serial.available()`); bytes are assumed
non-NUL (a NUL would truncate the Arduino `String` copy). -/
def checkSerialRX (app : App) (buf : List Char) (now : Nat) (byteIn : Option Char) : RxOut :=
  match byteIn with
  | some b =>
    let app := { app with serial_timeout_timer := SWTimer_start app.serial_timeout_timer now }
    let c := if b = ASCII_CR then ASCII_LF else b
    let buf := buf ++ [c]
    let r : App × Bool × List Emit :=
      if c = ASCII_LF then
        let app := checkPriority app buf
        let ems := if ECHO_EN then [Emit.msg buf] else []
        ({ app with command := buf }, true, ems)
      else (app, false, [])
    let app := r.1
    let valid := r.2.1
    let buf :=
      if SWTimer_expired app.serial_timeout_timer now ∨ CMD_CHAR_LEN ≤ buf.length ∨ valid then []
      else buf
    { app := app, buf := buf, valid := valid, ems := r.2.2 }
  | none =>
    let buf :=
      if SWTimer_expired app.serial_timeout_timer now ∨ CMD_CHAR_LEN ≤ buf.length then []
      else buf
    { app := app, buf := buf, valid := false, ems := [] }

/-! ### State machine (`primaryFSM`) and poll loop (`Application_loop`) -/

/-- Result of one `primaryFSM` poll (application, wiper position,
line-assembler buffer, serial emissions in order). -/
structure FsmOut where
  app : App
  pot : Nat
  buf : List Char
  ems : List Emit
deriving DecidableEq, Repr

/-- `primaryFSM` from `HAL.h`: reads the state, polls the line
assembler, then dispatches on the state exactly as the C `switch`. -/
def primaryFSM (app : App) (pot : Nat) (buf : List Char) (now : Nat)
    (byteIn : Option Char) : FsmOut :=
  let st := app.appState
  let rx := checkSerialRX app buf now byteIn
  let app := rx.app
  match st with
  | AppStates.Idle =>
    if rx.valid then
      let ex := executeCommand app pot app.command now
      { app := { ex.app with appState := AppStates.Executing }, pot := ex.pot, buf := rx.buf,
        ems := rx.ems ++ [Emit.recvMarker] ++ optEmit ex.msg }
    else
      { app := { app with appState := AppStates.Idle }, pot := pot, buf := rx.buf, ems := rx.ems }
  | AppStates.Executing =>
    if !SWTimer_expired app.wait_cmd_timer now then
      { app := { app with appState := AppStates.Waiting }, pot := pot, buf := rx.buf, ems := rx.ems }
    else if app.steps ≠ 0 then
      { app := { app with appState := AppStates.Linear }, pot := pot, buf := rx.buf, ems := rx.ems }
    else
      { app := { app with cmd_finished_flag := true, appState := AppStates.Idle }, pot := pot,
        buf := rx.buf, ems := rx.ems }
  | AppStates.Linear =>
    let r : App × Nat :=
      if SWTimer_expired app.linear_cmd_timer now then
        let direction : Int := if app.target_pos > app.pot_pos then 1 else -1
        let pot2 := setPositionI ((app.pot_pos : Int) + direction)
        ({ app with steps := app.steps - 1,
                    linear_cmd_timer := SWTimer_start app.linear_cmd_timer now }, pot2)
      else (app, pot)
    let app := r.1
    let pot := r.2
    if app.steps = 0 then
      { app := { app with cmd_finished_flag := true, appState := AppStates.Idle }, pot := pot,
        buf := rx.buf, ems := rx.ems }
    else
      { app := { app with appState := AppStates.Linear }, pot := pot, buf := rx.buf, ems := rx.ems }
  | AppStates.Waiting =>
    if SWTimer_expired app.wait_cmd_timer now then
      { app := { app with cmd_finished_flag := true, appState := AppStates.Idle }, pot := pot,
        buf := rx.buf, ems := rx.ems }
    else
      { app := { app with appState := AppStates.Waiting }, pot := pot, buf := rx.buf, ems := rx.ems }

/-- Whole-system state for one poll cycle: the application struct, the
external wiper position, and the C statics of `Application_loop`
(`old_pot_pos`) and `checkSerialRX` (the line buffer). -/
structure Sys where
  app : App
  pot : Nat
  old_pot_pos : Nat
  buf : List Char
deriving DecidableEq, Repr

/-- Per-cycle environment: `millis()`, the at-most-one serial byte, and
the raw analog sample. -/
structure Env where
  now : Nat
  byteIn : Option Char
  adc : Nat
deriving DecidableEq, Repr

/-- `pollPot` from `HAL.h` (the float voltage scaling is abstracted to
the raw sample; no claim mentions `pot_v`). -/
def pollPot (app : App) (pot : Nat) (e : Env) : App :=
  { app with pot_v := e.adc, pot_ohms := potOhm pot, pot_pos := pot, mes_timestamp := e.now }

/-- The change-detection block of `Application_loop`: on a position
change, re-arm the ADC settling timer and force a report. -/
def settlePhase (app : App) (old : Nat) (e : Env) : App :=
  if app.pot_pos ≠ old then
    { app with adc_settling_timer := SWTimer_start app.adc_settling_timer e.now,
               new_value_flag := true }
  else app

/-- The telemetry block of `Application_loop`: once the settling timer
has expired, report on cadence or when a new value is flagged. -/
def telemetryPhase (app : App) (e : Env) : App × List Emit :=
  if SWTimer_expired app.adc_settling_timer e.now then
    if SWTimer_expired app.data_step_timer e.now ∨ app.new_value_flag then
      ({ app with data_step_timer := SWTimer_start app.data_step_timer e.now,
                  new_value_flag := false }, [Emit.dataLine])
    else (app, [])
  else (app, [])

/-- The `cmd_finished_flag` block of `Application_loop`: consume the
flag and emit the end-of-command marker. -/
def finishPhase (app : App) : App × List Emit :=
  if app.cmd_finished_flag then ({ app with cmd_finished_flag := false }, [Emit.endMarker])
  else (app, [])

/-- The high-priority block at the end of `Application_loop`. -/
def hpPhase (app : App) (pot : Nat) (now : Nat) : App × Nat × List Emit :=
  if app.cmd_high_priority then
    let ex := executeCommand app pot app.command now
    (ex.app, ex.pot, Emit.hpMarker :: optEmit ex.msg)
  else (app, pot, [])

/-- `Application_loop` from `main.cpp`: poll the pot, re-arm settling on
a position change, emit telemetry once settled, emit the end-of-command
marker if flagged, run `primaryFSM`, then the high-priority path. -/
def Application_loop (sys : Sys) (e : Env) : Sys × List Emit :=
  let app := pollPot sys.app sys.pot e
  let app := settlePhase app sys.old_pot_pos e
  let r1 := telemetryPhase app e
  let r2 := finishPhase r1.1
  let f := primaryFSM r2.1 sys.pot sys.buf e.now e.byteIn
  let r3 := hpPhase f.app f.pot e.now
  ({ app := r3.1, pot := r3.2.1, old_pot_pos := r3.1.pot_pos, buf := f.buf },
   r1.2 ++ r2.2 ++ f.ems ++ r3.2.2)

/-- Iterated `Application_loop` over a list of per-cycle environments,
collecting all emissions in order. -/
def runLoop (sys : Sys) : List Env → Sys × List Emit
  | [] => (sys, [])
  | e :: es =>
    let r := Application_loop sys e
    let rs := runLoop r.1 es
    (rs.1, r.2 ++ rs.2)

/-- Quiet (no serial byte) poll cycles at times `n + d, n + 2*d, ...`. -/
def quietEnvs (n d : Nat) : Nat → List Env
  | 0 => []
  | k + 1 => { now := n + d, byteIn := none, adc := 0 } :: quietEnvs (n + d) d k

/-- Iterated `checkSerialRX` over a byte list at a fixed time,
collecting each delivered command line (the value `app->command` takes
when `valid_cmd` is true). -/
def feedSerial (app : App) (buf : List Char) (now : Nat) :
    List Char → App × List Char × List (List Char)
  | [] => (app, buf, [])
  | b :: bs =>
    let r := checkSerialRX app buf now (some b)
    let rs := feedSerial r.app r.buf now bs
    (rs.1, rs.2.1, (if r.valid then [r.app.command] else []) ++ rs.2.2)

/-- Mirrors the guard chain of the `'t'` branch of `executeCommand` and
decides whether control reaches the statement
`uint64_t step_time = app_p->ramping_time / (app_p->steps);`
with `steps` equal to zero — a division by zero in the C source. -/
def tRampDividesByZero (app : App) (input0 : List Char) : Bool :=
  let input := toLowerList input0
  let r0 := nextWord input 0 true
  let cmd_type := r0.1.headD (Char.ofNat 0)
  if cmd_type = 't' then
    let r1 := nextWord input r0.2 false
    let arg1 := r1.1
    let r2 := nextWord input r1.2 false
    let arg2 := r2.1
    if isNumeric arg1 then
      let target : Int := toInt arg1
      if 0 ≤ target ∧ target < 100 then
        if isNumeric arg2 then
          let time : Nat := toUInt64 (toInt arg2)
          if 0 < time then decide ((target - (app.pot_pos : Int)).natAbs = 0)
          else false
        else false
      else false
    else false
  else false

/-! ### Basic lemmas -/

theorem SWTimer_expired_mono {t : SWTimer} {m n : Nat}
    (h : SWTimer_expired t m = true) (hmn : m ≤ n) : SWTimer_expired t n = true := by
  simp only [SWTimer_expired, Bool.or_eq_true, Bool.not_eq_eq_eq_not, decide_eq_true_eq] at h ⊢
  rcases h with h | h
  · exact Or.inl h
  · exact Or.inr (le_trans h hmn)

theorem toUInt64_of_small {i : Int} (h0 : 0 ≤ i) (h : i < (2 : Int) ^ 64) :
    toUInt64 i = i.toNat := by
  unfold toUInt64
  rw [Int.emod_eq_of_lt h0 h]

theorem takeWhile_word {p : Char → Bool} {w : List Char} (s : Char) (rest : List Char)
    (hw : ∀ c ∈ w, p c = true) (hs : p s = false) :
    (w ++ s :: rest).takeWhile p = w := by
  induction w with
  | nil => simp [List.takeWhile_cons, hs]
  | cons a tl ih =>
    have ha : p a = true := hw a (List.mem_cons_self a tl)
    simp only [List.cons_append, List.takeWhile_cons, ha, if_true]
    rw [ih fun c hc => hw c (List.mem_cons_of_mem a hc)]

theorem dropWhile_word {p : Char → Bool} {w : List Char} (s : Char) (rest : List Char)
    (hw : ∀ c ∈ w, p c = true) (hs : p s = false) :
    (w ++ s :: rest).dropWhile p = s :: rest := by
  induction w with
  | nil => simp [List.dropWhile_cons, hs]
  | cons a tl ih =>
    have ha : p a = true := hw a (List.mem_cons_self a tl)
    simp only [List.cons_append, List.dropWhile_cons, ha, if_true]
    exact ih fun c hc => hw c (List.mem_cons_of_mem a hc)

theorem drop_word_sep (w : List Char) (s : Char) (Y : List Char) :
    (w ++ s :: Y).drop (w.length + 1) = Y := by
  induction w with
  | nil => simp
  | cons a tl ih => simp [ih]

/-! ### Tokenizer lemmas -/

/-- The scan starting at a word followed by a separator returns that word
and moves the cursor past the separator. -/
theorem nextWordCore_word (input : List Char) (cur : Nat) (w : List Char) (s : Char)
    (rest : List Char) (hd : input.drop cur = w ++ s :: rest) (hw : w ≠ [])
    (hall : ∀ c ∈ w, isSep c = false) (hs : isSep s = true) :
    nextWordCore input cur = (w, cur + w.length + 1) := by
  have hlen : ¬ input.length ≤ cur := by
    intro hle
    have : input.drop cur = [] := List.drop_eq_nil_iff.mpr hle
    rw [hd] at this
    exact (List.append_ne_nil_of_right_ne_nil w (List.cons_ne_nil s rest)) this
  obtain ⟨a, w', rfl⟩ : ∃ a w', w = a :: w' := by
    cases w with
    | nil => exact absurd rfl hw
    | cons a w' => exact ⟨a, w', rfl⟩
  have hda : isSep a = false := hall a (List.mem_cons_self a w')
  have htw : ((a :: w') ++ s :: rest).takeWhile isSep = [] := by
    simp [List.takeWhile_cons, hda]
  have hdw : ((a :: w') ++ s :: rest).dropWhile isSep = (a :: w') ++ s :: rest := by
    simp [List.dropWhile_cons, hda]
  have htw2 : ((a :: w') ++ s :: rest).takeWhile (fun c => !isSep c) = a :: w' :=
    takeWhile_word s rest (fun c hc => by simp [hall c hc]) (by simp [hs])
  have hdw2 : ((a :: w') ++ s :: rest).dropWhile (fun c => !isSep c) = s :: rest :=
    dropWhile_word s rest (fun c hc => by simp [hall c hc]) (by simp [hs])
  unfold nextWordCore
  rw [if_neg hlen, hd]
  simp only [hdw, htw, htw2, hdw2, List.length_nil, Nat.add_zero]
  simp

/-- Past the end of the line the scan returns `"NULL"` and leaves the
cursor alone. -/
theorem nextWordCore_exhausted {input : List Char} {cur : Nat}
    (h : input.length ≤ cur) : nextWordCore input cur = (NULLSTR, cur) := by
  unfold nextWordCore
  rw [if_pos h]

/-- The first character of the first word of `c :: tl` is `c` itself,
whenever `c` is not a separator and the line contains a line feed. -/
theorem nextWordCore_head {c : Char} {tl : List Char} (hc : isSep c = false)
    (h : '\n' ∈ tl) :
    ((nextWordCore (c :: tl) 0).1).headD (Char.ofNat 0) = c := by
  have hlen : ¬ (c :: tl).length ≤ 0 := by simp
  have hdw : (c :: tl).dropWhile isSep = c :: tl := by
    simp [List.dropWhile_cons, hc]
  have hne : (c :: tl).dropWhile (fun x => !isSep x) ≠ [] := by
    rw [Ne, List.dropWhile_eq_nil_iff]
    intro hall
    have := hall '\n' (List.mem_cons_of_mem c h)
    simp [isSep, ASCII_LF] at this
  unfold nextWordCore
  rw [if_neg hlen]
  simp only [List.drop_zero, hdw]
  rw [if_neg (by simp [List.dropWhile_cons, hc])]
  rw [if_neg hne]
  simp [List.takeWhile_cons, hc]

/-! ### Phase lemmas for `Application_loop` -/

theorem end_not_in_optEmit (m : Option (List Char)) : Emit.endMarker ∉ optEmit m := by
  cases m <;> simp [optEmit]

theorem checkSerialRX_ems (app : App) (buf : List Char) (now : Nat) (b : Option Char) :
    (checkSerialRX app buf now b).ems = [] := by
  cases b with
  | none => rfl
  | some c =>
    simp only [checkSerialRX]
    split <;> split <;> simp [ECHO_EN]

theorem checkSerialRX_none_app (app : App) (buf : List Char) (now : Nat) :
    (checkSerialRX app buf now none).app = app := rfl

theorem checkSerialRX_none_valid (app : App) (buf : List Char) (now : Nat) :
    (checkSerialRX app buf now none).valid = false := rfl

theorem settlePhase_cases (app : App) (old : Nat) (e : Env) :
    settlePhase app old e
        = { app with adc_settling_timer := SWTimer_start app.adc_settling_timer e.now,
                     new_value_flag := true }
      ∨ settlePhase app old e = app := by
  unfold settlePhase
  split
  · exact Or.inl rfl
  · exact Or.inr rfl

theorem telemetryPhase_cases (app : App) (e : Env) :
    telemetryPhase app e
        = ({ app with data_step_timer := SWTimer_start app.data_step_timer e.now,
                      new_value_flag := false }, [Emit.dataLine])
      ∨ telemetryPhase app e = (app, []) := by
  unfold telemetryPhase
  split
  · split
    · exact Or.inl rfl
    · exact Or.inr rfl
  · exact Or.inr rfl

theorem finishPhase_false {app : App} (h : app.cmd_finished_flag = false) :
    finishPhase app = (app, []) := by
  unfold finishPhase
  rw [h]
  simp

theorem finishPhase_true {app : App} (h : app.cmd_finished_flag = true) :
    finishPhase app = ({ app with cmd_finished_flag := false }, [Emit.endMarker]) := by
  unfold finishPhase
  rw [h]
  simp

theorem hpPhase_false {app : App} (pot : Nat) (now : Nat)
    (h : app.cmd_high_priority = false) : hpPhase app pot now = (app, pot, []) := by
  unfold hpPhase
  rw [h]
  simp

theorem primaryFSM_count_end (app : App) (pot : Nat) (buf : List Char) (now : Nat)
    (b : Option Char) : ((primaryFSM app pot buf now b).ems).count Emit.endMarker = 0 := by
  rw [List.count_eq_zero]
  unfold primaryFSM
  cases happ : app.appState <;>
    simp only [checkSerialRX_ems] <;>
    (repeat' split) <;>
    simp [end_not_in_optEmit]

theorem hpPhase_count_end (app : App) (pot : Nat) (now : Nat) :
    ((hpPhase app pot now).2.2).count Emit.endMarker = 0 := by
  rw [List.count_eq_zero]
  unfold hpPhase
  split <;> simp [end_not_in_optEmit]

theorem telemetryPhase_count_end (app : App) (e : Env) :
    ((telemetryPhase app e).2).count Emit.endMarker = 0 := by
  rcases telemetryPhase_cases app e with h | h <;> rw [h] <;> simp

theorem settlePhase_flag (app : App) (old : Nat) (e : Env) :
    (settlePhase app old e).cmd_finished_flag = app.cmd_finished_flag := by
  unfold settlePhase
  split <;> rfl

theorem telemetryPhase_flag (app : App) (e : Env) :
    ((telemetryPhase app e).1).cmd_finished_flag = app.cmd_finished_flag := by
  unfold telemetryPhase
  (repeat' split) <;> rfl

/-- The flag consumed by `finishPhase` within one `Application_loop`
cycle is the incoming `cmd_finished_flag`: the poll, settling and
telemetry blocks never touch it. -/
theorem flag_through_phases (sys : Sys) (e : Env) :
    ((telemetryPhase (settlePhase (pollPot sys.app sys.pot e) sys.old_pot_pos e) e).1).cmd_finished_flag
      = sys.app.cmd_finished_flag := by
  rw [telemetryPhase_flag, settlePhase_flag]
  rfl

/-- Exactly one end-of-command marker leaves a poll cycle iff the cycle
began with `cmd_finished_flag` set. -/
theorem Application_loop_count_end (sys : Sys) (e : Env) :
    ((Application_loop sys e).2).count Emit.endMarker
      = if sys.app.cmd_finished_flag = true then 1 else 0 := by
  unfold Application_loop
  simp only [List.count_append, primaryFSM_count_end, hpPhase_count_end,
    telemetryPhase_count_end]
  rcases hflag : sys.app.cmd_finished_flag with _ | _
  · rw [finishPhase_false (by rw [flag_through_phases]; exact hflag)]
    simp
  · rw [finishPhase_true (by rw [flag_through_phases]; exact hflag)]
    simp

/-! ### Line-shape lemmas -/

theorem toLowerChar_space : toLowerChar ' ' = ' ' := by decide

theorem toLowerChar_lf : toLowerChar '\n' = '\n' := by decide

theorem isSep_space : isSep ' ' = true := by decide

theorem isSep_lf : isSep '\n' = true := by decide

theorem toLower_line_two (c : Char) (arg1 arg2 : List Char)
    (h1l : toLowerList arg1 = arg1) (h2l : toLowerList arg2 = arg2) :
    toLowerList (c :: ' ' :: arg1 ++ ' ' :: arg2 ++ ['\n'])
      = toLowerChar c :: ' ' :: arg1 ++ ' ' :: arg2 ++ ['\n'] := by
  simp only [toLowerList] at h1l h2l ⊢
  simp [h1l, h2l, toLowerChar_space, toLowerChar_lf]

theorem toLower_line_one (c : Char) (arg1 : List Char) (h1l : toLowerList arg1 = arg1) :
    toLowerList (c :: ' ' :: arg1 ++ ['\n']) = toLowerChar c :: ' ' :: arg1 ++ ['\n'] := by
  simp only [toLowerList] at h1l ⊢
  simp [h1l, toLowerChar_space, toLowerChar_lf]

/-- Tokenization of a one-argument command line `c <arg1>\n`: the word
`[c]`, then `arg1`, then the `"NULL"` sentinel (line exhausted). -/
theorem tokens_one (c : Char) (arg1 : List Char) (hc : isSep c = false)
    (h1n : arg1 ≠ []) (h1s : ∀ x ∈ arg1, isSep x = false) :
    nextWordCore (c :: ' ' :: arg1 ++ ['\n']) 0 = ([c], 2)
    ∧ nextWordCore (c :: ' ' :: arg1 ++ ['\n']) 2 = (arg1, arg1.length + 3)
    ∧ nextWordCore (c :: ' ' :: arg1 ++ ['\n']) (arg1.length + 3)
        = (NULLSTR, arg1.length + 3) := by
  refine ⟨?_, ?_, ?_⟩
  · have := nextWordCore_word (c :: ' ' :: arg1 ++ ['\n']) 0 [c] ' ' (arg1 ++ ['\n'])
      rfl (by simp) (by intro x hx; simp at hx; rw [hx]; exact hc) isSep_space
    simpa using this
  · have := nextWordCore_word (c :: ' ' :: arg1 ++ ['\n']) 2 arg1 '\n' []
      (by simp [List.drop]) h1n h1s isSep_lf
    rw [this, Prod.mk.injEq]
    exact ⟨rfl, by omega⟩
  · exact nextWordCore_exhausted (by simp)

/-- Tokenization of a two-argument command line `c <arg1> <arg2>\n`. -/
theorem tokens_two (c : Char) (arg1 arg2 : List Char) (hc : isSep c = false)
    (h1n : arg1 ≠ []) (h1s : ∀ x ∈ arg1, isSep x = false)
    (h2n : arg2 ≠ []) (h2s : ∀ x ∈ arg2, isSep x = false) :
    nextWordCore (c :: ' ' :: arg1 ++ ' ' :: arg2 ++ ['\n']) 0 = ([c], 2)
    ∧ nextWordCore (c :: ' ' :: arg1 ++ ' ' :: arg2 ++ ['\n']) 2 = (arg1, arg1.length + 3)
    ∧ nextWordCore (c :: ' ' :: arg1 ++ ' ' :: arg2 ++ ['\n']) (arg1.length + 3)
        = (arg2, arg1.length + 3 + arg2.length + 1) := by
  refine ⟨?_, ?_, ?_⟩
  · have := nextWordCore_word (c :: ' ' :: arg1 ++ ' ' :: arg2 ++ ['\n']) 0 [c] ' '
      (arg1 ++ ' ' :: arg2 ++ ['\n']) rfl (by simp)
      (by intro x hx; simp at hx; rw [hx]; exact hc) isSep_space
    simpa using this
  · have := nextWordCore_word (c :: ' ' :: arg1 ++ ' ' :: arg2 ++ ['\n']) 2 arg1 ' '
      (arg2 ++ ['\n']) (by simp [List.drop]) h1n h1s isSep_space
    rw [this, Prod.mk.injEq]
    exact ⟨rfl, by omega⟩
  · have hdrop : (c :: ' ' :: arg1 ++ ' ' :: arg2 ++ ['\n']).drop (arg1.length + 3)
        = arg2 ++ ['\n'] := by
      have h2 : arg1.length + 3 = arg1.length + 1 + 2 := by omega
      rw [h2]
      have h3 : (c :: ' ' :: arg1 ++ ' ' :: arg2 ++ ['\n']).drop (arg1.length + 1 + 2)
          = (arg1 ++ ' ' :: (arg2 ++ ['\n'])).drop (arg1.length + 1) := by
        simp [List.drop_succ_cons, Nat.add_comm]
      rw [h3, drop_word_sep]
    have := nextWordCore_word (c :: ' ' :: arg1 ++ ' ' :: arg2 ++ ['\n'])
      (arg1.length + 3) arg2 '\n' [] hdrop h2n h2s isSep_lf
    rw [this]

/-! ### `executeCommand` evaluation on canonical line shapes -/

/-- The `'t'` branch on a two-argument line `t <arg1> <arg2>\n`, with the
tokenizer resolved: the guard chain of the source with `target`,
`time` and `steps` substituted. -/
theorem executeCommand_t2_eval (app : App) (pot n : Nat) (arg1 arg2 : List Char)
    (h1n : arg1 ≠ []) (h1s : ∀ x ∈ arg1, isSep x = false) (h1l : toLowerList arg1 = arg1)
    (h2n : arg2 ≠ []) (h2s : ∀ x ∈ arg2, isSep x = false) (h2l : toLowerList arg2 = arg2) :
    executeCommand app pot ('t' :: ' ' :: arg1 ++ ' ' :: arg2 ++ ['\n']) n
      = (if isNumeric arg1 then
          if 0 ≤ toInt arg1 ∧ toInt arg1 < 100 then
            if isNumeric arg2 then
              if 0 < toUInt64 (toInt arg2) then
                { app :=
                    { app with
                      target_pos := (toInt arg1).toNat
                      ramping_time := toUInt64 (toInt arg2)
                      steps := (toInt arg1 - (app.pot_pos : Int)).natAbs
                      linear_cmd_timer :=
                        SWTimer_start
                          (SWTimer_construct
                            (toUInt64 (toInt arg2) / (toInt arg1 - (app.pot_pos : Int)).natAbs)) n },
                  pot := pot, msg := none }
              else { app := app, pot := pot, msg := some msgTimeOOB }
            else if arg2 = NULLSTR then
              { app := app, pot := setPositionI (toInt arg1), msg := none }
            else { app := app, pot := pot, msg := none }
          else { app := app, pot := pot, msg := some msgThrottleOOB }
        else { app := app, pot := pot, msg := some msgBadArgT }) := by
  have hlow := toLower_line_two 't' arg1 arg2 h1l h2l
  have hlt : toLowerChar 't' = 't' := by decide
  rw [hlt] at hlow
  obtain ⟨ht0, ht1, ht2⟩ := tokens_two 't' arg1 arg2 (by decide) h1n h1s h2n h2s
  simp only [executeCommand, nextWord, hlow, if_true, if_false, Bool.false_eq_true, ht0, ht1,
    ht2, List.headD_cons]

/-- The `'t'` branch on a one-argument line `t <arg1>\n`: the missing
duration token is the tokenizer's `"NULL"` sentinel, which is not
numeric and equals the literal compared by the source, so a valid
target is set immediately. -/
theorem executeCommand_t1_eval (app : App) (pot n : Nat) (arg1 : List Char)
    (h1n : arg1 ≠ []) (h1s : ∀ x ∈ arg1, isSep x = false) (h1l : toLowerList arg1 = arg1) :
    executeCommand app pot ('t' :: ' ' :: arg1 ++ ['\n']) n
      = (if isNumeric arg1 then
          if 0 ≤ toInt arg1 ∧ toInt arg1 < 100 then
            { app := app, pot := setPositionI (toInt arg1), msg := none }
          else { app := app, pot := pot, msg := some msgThrottleOOB }
        else { app := app, pot := pot, msg := some msgBadArgT }) := by
  have hlow := toLower_line_one 't' arg1 h1l
  have hlt : toLowerChar 't' = 't' := by decide
  rw [hlt] at hlow
  obtain ⟨ht0, ht1, ht2⟩ := tokens_one 't' arg1 (by decide) h1n h1s
  have hnum : isNumeric NULLSTR = false := by decide
  simp only [executeCommand, nextWord, hlow, if_true, if_false, Bool.false_eq_true, ht0, ht1,
    ht2, List.headD_cons, hnum]

/-- The `'s'` branch on a line `s <arg1>\n`: relative move from the
polled position. -/
theorem executeCommand_s1_eval (app : App) (pot n : Nat) (arg1 : List Char)
    (h1n : arg1 ≠ []) (h1s : ∀ x ∈ arg1, isSep x = false) (h1l : toLowerList arg1 = arg1) :
    executeCommand app pot ('s' :: ' ' :: arg1 ++ ['\n']) n
      = (if isNumeric arg1 then
          if 0 ≤ (app.pot_pos : Int) + toInt arg1 ∧ (app.pot_pos : Int) + toInt arg1 < 100 then
            { app := app, pot := setPositionI ((app.pot_pos : Int) + toInt arg1), msg := none }
          else { app := app, pot := pot, msg := some msgThrottleOOB }
        else { app := app, pot := pot, msg := some msgBadArgS }) := by
  have hlow := toLower_line_one 's' arg1 h1l
  have hls : toLowerChar 's' = 's' := by decide
  rw [hls] at hlow
  obtain ⟨ht0, ht1, ht2⟩ := tokens_one 's' arg1 (by decide) h1n h1s
  simp only [executeCommand, nextWord, hlow, if_true, if_false, Bool.false_eq_true, ht0, ht1,
    ht2, List.headD_cons]
  simp

/-- The `'w'` branch on a line `w <arg1>\n`: arm the wait timer when
the parsed duration is positive. -/
theorem executeCommand_w1_eval (app : App) (pot n : Nat) (arg1 : List Char)
    (h1n : arg1 ≠ []) (h1s : ∀ x ∈ arg1, isSep x = false) (h1l : toLowerList arg1 = arg1) :
    executeCommand app pot ('w' :: ' ' :: arg1 ++ ['\n']) n
      = (if isNumeric arg1 then
          if 0 < toInt arg1 then
            { app := { app with
                wait_cmd_timer := SWTimer_start (SWTimer_construct (toInt arg1).toNat) n },
              pot := pot, msg := none }
          else { app := app, pot := pot, msg := some msgTimeOOB }
        else { app := app, pot := pot, msg := some msgBadArgW }) := by
  have hlow := toLower_line_one 'w' arg1 h1l
  have hlw : toLowerChar 'w' = 'w' := by decide
  rw [hlw] at hlow
  obtain ⟨ht0, ht1, ht2⟩ := tokens_one 'w' arg1 (by decide) h1n h1s
  simp only [executeCommand, nextWord, hlow, if_true, if_false, Bool.false_eq_true, ht0, ht1,
    ht2, List.headD_cons]
  simp

/-- Any line whose first word starts with a character that lower-cases
to none of `t`, `s`, `w`, `r`, `q` falls to the `default` branch:
`"  Unknown command type"`, no state change. -/
theorem executeCommand_default_eval (app : App) (pot n : Nat) (c : Char) (rest : List Char)
    (hc : isSep (toLowerChar c) = false)
    (hct : toLowerChar c ≠ 't') (hcs : toLowerChar c ≠ 's') (hcw : toLowerChar c ≠ 'w')
    (hcr : toLowerChar c ≠ 'r') (hcq : toLowerChar c ≠ 'q') :
    executeCommand app pot (c :: rest ++ ['\n']) n
      = { app := app, pot := pot, msg := some msgUnknown } := by
  have hmem : '\n' ∈ toLowerList (rest ++ ['\n']) := by
    refine List.mem_map.mpr ⟨'\n', by simp, toLowerChar_lf⟩
  have hlow : toLowerList (c :: rest ++ ['\n']) = toLowerChar c :: toLowerList (rest ++ ['\n']) := by
    simp [toLowerList]
  have hhead := nextWordCore_head hc hmem
  simp only [executeCommand, nextWord, hlow, if_true, hhead, if_neg hct, if_neg hcs,
    if_neg hcw, if_neg hcr, if_neg hcq]

/-- Any line whose first word starts with a character that lower-cases
to `q` (so both `q` and `Q`) reaches the `'q'` branch: the wiper is
driven to 0 and the application is reconstructed. -/
theorem executeCommand_q_eval (app : App) (pot n : Nat) (c : Char) (rest : List Char)
    (hq : toLowerChar c = 'q') :
    executeCommand app pot (c :: rest ++ ['\n']) n
      = { app := Application_construct, pot := setPositionI 0, msg := none } := by
  have hc : isSep (toLowerChar c) = false := by rw [hq]; decide
  have hmem : '\n' ∈ toLowerList (rest ++ ['\n']) := by
    refine List.mem_map.mpr ⟨'\n', by simp, toLowerChar_lf⟩
  have hlow : toLowerList (c :: rest ++ ['\n']) = toLowerChar c :: toLowerList (rest ++ ['\n']) := by
    simp [toLowerList]
  have hhead := nextWordCore_head hc hmem
  rw [hq] at hlow hhead
  simp only [executeCommand, nextWord, hlow, if_true, hhead]
  simp

/-! ### Cycle-level machinery -/

theorem setPositionI_small {x : Int} (h0 : 0 ≤ x) (h : x < 100) : setPositionI x = x.toNat := by
  unfold setPositionI
  rw [Int.emod_eq_of_lt h0 (by omega)]
  exact min_eq_left (by omega)

/-- `executeCommand` never raises the high-priority flag. -/
theorem executeCommand_hp_false (app : App) (pot : Nat) (i : List Char) (n : Nat)
    (h : app.cmd_high_priority = false) :
    (executeCommand app pot i n).app.cmd_high_priority = false := by
  simp only [executeCommand]
  (repeat' split) <;> first | exact h | rfl

/-- The poll / settling / telemetry blocks only touch `pot_v`,
`pot_ohms`, `pot_pos`, `mes_timestamp` and (existentially) the settling
timer, report timer and new-value flag. -/
theorem phases3_spec (sys : Sys) (e : Env) :
    ∃ st dt nv,
      (telemetryPhase (settlePhase (pollPot sys.app sys.pot e) sys.old_pot_pos e) e).1
        = { sys.app with
            pot_v := e.adc
            pot_ohms := potOhm sys.pot
            pot_pos := sys.pot
            mes_timestamp := e.now
            adc_settling_timer := st
            data_step_timer := dt
            new_value_flag := nv } := by
  unfold pollPot settlePhase telemetryPhase
  (repeat' split) <;> exact ⟨_, _, _, rfl⟩

/-- Adds the `cmd_finished_flag` consumption: the application entering
`primaryFSM` is the incoming one with the poll fields updated, the flag
cleared, and the end-of-command marker emitted iff the flag was set. -/
theorem preFinish_spec (sys : Sys) (e : Env) :
    ∃ st dt nv,
      (finishPhase (telemetryPhase (settlePhase (pollPot sys.app sys.pot e) sys.old_pot_pos e) e).1).1
        = { sys.app with
            pot_v := e.adc
            pot_ohms := potOhm sys.pot
            pot_pos := sys.pot
            mes_timestamp := e.now
            adc_settling_timer := st
            data_step_timer := dt
            new_value_flag := nv
            cmd_finished_flag := false }
      ∧ (finishPhase (telemetryPhase (settlePhase (pollPot sys.app sys.pot e) sys.old_pot_pos e) e).1).2
          = (if sys.app.cmd_finished_flag = true then [Emit.endMarker] else []) := by
  obtain ⟨st, dt, nv, h3⟩ := phases3_spec sys e
  refine ⟨st, dt, nv, ?_, ?_⟩ <;> rw [h3] <;> rcases hf : sys.app.cmd_finished_flag
  · rw [finishPhase_false (by rw [← hf])]
    rw [← hf]
  · rw [finishPhase_true (by rw [← hf])]
  · rw [finishPhase_false (by rw [← hf])]
    simp
  · rw [finishPhase_true (by rw [← hf])]
    simp

theorem telemetryPhase_ems (app : App) (e : Env) :
    (telemetryPhase app e).2 = [] ∨ (telemetryPhase app e).2 = [Emit.dataLine] := by
  rcases telemetryPhase_cases app e with h | h <;> rw [h]
  · exact Or.inr rfl
  · exact Or.inl rfl

theorem checkPriority_not_q (app : App) (cmd : List Char)
    (h : cmd.headD (Char.ofNat 0) ≠ 'q') : checkPriority app cmd = app := by
  unfold checkPriority
  rw [if_neg h]

theorem checkPriority_q (app : App) (cmd : List Char)
    (h : cmd.headD (Char.ofNat 0) = 'q') :
    checkPriority app cmd = { app with cmd_high_priority := true } := by
  unfold checkPriority
  rw [if_pos h]

/-- A line-feed byte completes the buffered line: the priority check
runs on the raw line, the command is stored, `valid_cmd` is returned and
the buffer is reset. -/
theorem checkSerialRX_lf (app : App) (buf : List Char) (now : Nat) :
    checkSerialRX app buf now (some '\n')
      = { app :=
            { checkPriority
                { app with serial_timeout_timer := SWTimer_start app.serial_timeout_timer now }
                (buf ++ ['\n']) with
              command := buf ++ ['\n'] }
          buf := []
          valid := true
          ems := [] } := by
  simp only [checkSerialRX]
  norm_num [ASCII_CR, ASCII_LF, ECHO_EN]

/-- `primaryFSM` in `Idle` on the cycle a line (not starting with the
raw byte `'q'`) is completed: emit the received marker, execute the
command, move to `Executing`. -/
theorem primaryFSM_idle_valid (app : App) (pot : Nat) (now : Nat)
    (c0 : Char) (body : List Char)
    (hIdle : app.appState = AppStates.Idle) (hc : c0 ≠ 'q') :
    primaryFSM app pot (c0 :: body) now (some '\n')
      = (let app1 :=
           { app with
             serial_timeout_timer := SWTimer_start app.serial_timeout_timer now
             command := (c0 :: body) ++ ['\n'] }
         let ex := executeCommand app1 pot ((c0 :: body) ++ ['\n']) now
         { app := { ex.app with appState := AppStates.Executing }
           pot := ex.pot
           buf := []
           ems := [Emit.recvMarker] ++ optEmit ex.msg }) := by
  have hrx := checkSerialRX_lf app (c0 :: body) now
  rw [checkPriority_not_q _ _ (by simp [hc])] at hrx
  simp only [primaryFSM, hrx, hIdle]
  simp

/-- One full `Application_loop` cycle in which an Idle application
receives the final line feed of a (non-priority) command line: the poll
fields are refreshed, the command executes, the state becomes
`Executing`, the received marker is emitted ahead of any command output,
and the cycle emits no end-of-command marker. -/
theorem loop_idle_dispatch (sys : Sys) (e : Env) (c0 : Char) (body : List Char)
    (hIdle : sys.app.appState = AppStates.Idle)
    (hflag : sys.app.cmd_finished_flag = false)
    (hhp : sys.app.cmd_high_priority = false)
    (hbuf : sys.buf = c0 :: body)
    (hb : e.byteIn = some '\n')
    (hc : c0 ≠ 'q') :
    ∃ st dt nv ems1,
      (ems1 = [] ∨ ems1 = [Emit.dataLine])
      ∧ Application_loop sys e
          = (let app1 : App :=
               { sys.app with
                 pot_v := e.adc
                 pot_ohms := potOhm sys.pot
                 pot_pos := sys.pot
                 mes_timestamp := e.now
                 adc_settling_timer := st
                 data_step_timer := dt
                 new_value_flag := nv
                 cmd_finished_flag := false
                 serial_timeout_timer := SWTimer_start sys.app.serial_timeout_timer e.now
                 command := (c0 :: body) ++ ['\n'] }
             let ex := executeCommand app1 sys.pot ((c0 :: body) ++ ['\n']) e.now
             ({ app := { ex.app with appState := AppStates.Executing }
                pot := ex.pot
                old_pot_pos := ex.app.pot_pos
                buf := [] },
              ems1 ++ ([Emit.recvMarker] ++ optEmit ex.msg))) := by
  obtain ⟨st, dt, nv, hpre, hfems⟩ := preFinish_spec sys e
  refine ⟨st, dt, nv,
    (telemetryPhase (settlePhase (pollPot sys.app sys.pot e) sys.old_pot_pos e) e).2,
    telemetryPhase_ems _ e, ?_⟩
  have hpfsm := primaryFSM_idle_valid
    { sys.app with
      pot_v := e.adc
      pot_ohms := potOhm sys.pot
      pot_pos := sys.pot
      mes_timestamp := e.now
      adc_settling_timer := st
      data_step_timer := dt
      new_value_flag := nv
      cmd_finished_flag := false }
    sys.pot e.now c0 body hIdle hc
  simp only [Application_loop, hb, hbuf, hpre, hpfsm, hfems, hflag]
  simp [hpPhase, executeCommand_hp_false, hhp]

/-! ### Claim C8 -/

/-- C8: for every input line, once the tokenizer cursor has reached or
passed the end of the line, every further `nextWord` call with
`reset = false` returns `"NULL"` and leaves the cursor unchanged — after
any number `k` of further calls the next call still yields
`("NULL", cur)` — and this persists until a call passes `reset = true`,
which restarts the scan from cursor 0. -/
theorem c8_tokenizer_null_after_exhaustion (input : List Char) (cur : Nat)
    (h : input.length ≤ cur) (k : Nat) :
    nextWord input ((fun c0 => (nextWord input c0 false).2)^[k] cur) false = (NULLSTR, cur)
    ∧ nextWord input cur true = nextWordCore input 0 := by
  have hone : nextWord input cur false = (NULLSTR, cur) := by
    simp only [nextWord, Bool.false_eq_true, if_false]
    exact nextWordCore_exhausted h
  have hfix : (fun c0 => (nextWord input c0 false).2) cur = cur := by
    show (nextWord input cur false).2 = cur
    rw [hone]
  have hiter : (fun c0 => (nextWord input c0 false).2)^[k] cur = cur :=
    Function.iterate_fixed hfix k
  refine ⟨by rw [hiter, hone], by simp [nextWord]⟩

/-- Witness for C8 at `input = "ab"`, `cur = 2`, three further calls. -/
theorem c8_witness :
    nextWord ['a', 'b'] ((fun c0 => (nextWord ['a', 'b'] c0 false).2)^[3] 2) false
        = (NULLSTR, 2)
    ∧ nextWord ['a', 'b'] 2 true = nextWordCore ['a', 'b'] 0 :=
  c8_tokenizer_null_after_exhaustion ['a', 'b'] 2 (by decide) 3

/-! ### Claim C10 -/

/-- C10: in any poll cycle with no serial byte available and the state
machine in `Idle`, `primaryFSM` returns the application struct exactly
as it was (state still `Idle`, no timer started, `target_pos`, `steps`
and the command flags untouched), the wiper position unchanged, and
emits nothing; only the line-assembler statics (outside the
`Application` struct) may reset. -/
theorem c10_idle_quiescence (app : App) (pot : Nat) (buf : List Char) (now : Nat)
    (h : app.appState = AppStates.Idle) :
    (primaryFSM app pot buf now none).app = app
    ∧ (primaryFSM app pot buf now none).pot = pot
    ∧ (primaryFSM app pot buf now none).ems = [] := by
  have e1 : (checkSerialRX app buf now none).app = app := rfl
  have e2 : (checkSerialRX app buf now none).valid = false := rfl
  have e3 : (checkSerialRX app buf now none).ems = [] := rfl
  refine ⟨?_, ?_, ?_⟩ <;>
    simp only [primaryFSM, h, e1, e2, e3, Bool.false_eq_true, if_false]
  rw [← h]

/-- Witness for C10 at the freshly constructed application. -/
theorem c10_witness :
    (primaryFSM Application_construct 5 ['x'] 7 none).app = Application_construct
    ∧ (primaryFSM Application_construct 5 ['x'] 7 none).pot = 5
    ∧ (primaryFSM Application_construct 5 ['x'] 7 none).ems = [] :=
  c10_idle_quiescence Application_construct 5 ['x'] 7 rfl

/-! ### Claim C2 -/

/-- C2 (code bug): on the valid command `t 0 100` issued while the
potentiometer sits at position 0, the `'t'` guard chain of
`executeCommand` is passed completely (`target = 0` in range, numeric
`time = 100 > 0`) with `steps = |0 - 0| = 0`, so the source evaluates
`app_p->ramping_time / (app_p->steps)` with divisor zero — there is no
`steps == 0` guard before the division. -/
theorem c2_division_by_zero_reached :
    tRampDividesByZero Application_construct ['t', ' ', '0', ' ', '1', '0', '0', '\n'] = true := by
  decide

/-! ### Claim C3 -/

/-- C3 (counterexample): the claim says position 99 is rejected as a `t`
target, but the source checks `target < 100`: `t 99` from position 7 is
accepted, the wiper is driven to 99 and no rejection is emitted. -/
theorem c3_counterexample :
    executeCommand Application_construct 7 ['t', ' ', '9', '9', '\n'] 0
      = { app := Application_construct, pot := 99, msg := none } := by
  decide

/-- C3 (amended): the interpreter accepts positions in [0,100), not
[0,99): a `t` target is rejected (message, no state change) iff it is
negative or at least 100 — so 99 is accepted and sets the wiper — and an
`s` relative move `newPos = pot_pos + delta` is applied iff
`newPos ∈ [0,100)` (99 included) and rejected with no state change
otherwise. -/
theorem c3_amended :
    (∀ (app : App) (pot n : Nat) (arg1 : List Char),
        arg1 ≠ [] → (∀ x ∈ arg1, isSep x = false) → toLowerList arg1 = arg1 →
        isNumeric arg1 = true → (toInt arg1 < 0 ∨ 100 ≤ toInt arg1) →
        executeCommand app pot ('t' :: ' ' :: arg1 ++ ['\n']) n
          = { app := app, pot := pot, msg := some msgThrottleOOB })
    ∧ (∀ (app : App) (pot n : Nat) (arg1 : List Char),
        arg1 ≠ [] → (∀ x ∈ arg1, isSep x = false) → toLowerList arg1 = arg1 →
        isNumeric arg1 = true → 0 ≤ toInt arg1 → toInt arg1 ≤ 99 →
        executeCommand app pot ('t' :: ' ' :: arg1 ++ ['\n']) n
          = { app := app, pot := (toInt arg1).toNat, msg := none })
    ∧ (∀ (app : App) (pot n : Nat) (arg1 : List Char),
        arg1 ≠ [] → (∀ x ∈ arg1, isSep x = false) → toLowerList arg1 = arg1 →
        isNumeric arg1 = true → 0 ≤ (app.pot_pos : Int) + toInt arg1 →
        (app.pot_pos : Int) + toInt arg1 ≤ 99 →
        executeCommand app pot ('s' :: ' ' :: arg1 ++ ['\n']) n
          = { app := app, pot := ((app.pot_pos : Int) + toInt arg1).toNat, msg := none })
    ∧ (∀ (app : App) (pot n : Nat) (arg1 : List Char),
        arg1 ≠ [] → (∀ x ∈ arg1, isSep x = false) → toLowerList arg1 = arg1 →
        isNumeric arg1 = true →
        ((app.pot_pos : Int) + toInt arg1 < 0 ∨ 100 ≤ (app.pot_pos : Int) + toInt arg1) →
        executeCommand app pot ('s' :: ' ' :: arg1 ++ ['\n']) n
          = { app := app, pot := pot, msg := some msgThrottleOOB }) := by
  refine ⟨?_, ?_, ?_, ?_⟩
  · intro app pot n arg1 h1n h1s h1l hnum hoob
    rw [executeCommand_t1_eval app pot n arg1 h1n h1s h1l, hnum]
    rw [if_pos rfl, if_neg (by omega)]
  · intro app pot n arg1 h1n h1s h1l hnum h0 h99
    rw [executeCommand_t1_eval app pot n arg1 h1n h1s h1l, hnum]
    rw [if_pos rfl, if_pos (by omega), setPositionI_small h0 (by omega)]
  · intro app pot n arg1 h1n h1s h1l hnum h0 h99
    rw [executeCommand_s1_eval app pot n arg1 h1n h1s h1l, hnum]
    rw [if_pos rfl, if_pos (by omega), setPositionI_small h0 (by omega)]
  · intro app pot n arg1 h1n h1s h1l hnum hoob
    rw [executeCommand_s1_eval app pot n arg1 h1n h1s h1l, hnum]
    rw [if_pos rfl, if_neg (by omega)]

/-- Witness for C3 (amended): `t 100` rejected, `t 99` accepted,
`s -5` from position 10 gives 5, `s -11` from position 10 rejected. -/
theorem c3_witness :
    executeCommand Application_construct 5 ['t', ' ', '1', '0', '0', '\n'] 3
        = { app := Application_construct, pot := 5, msg := some msgThrottleOOB }
    ∧ executeCommand Application_construct 5 ['t', ' ', '9', '9', '\n'] 3
        = { app := Application_construct, pot := 99, msg := none }
    ∧ executeCommand { Application_construct with pot_pos := 10 } 10
          ['s', ' ', '-', '5', '\n'] 3
        = { app := { Application_construct with pot_pos := 10 }, pot := 5, msg := none }
    ∧ executeCommand { Application_construct with pot_pos := 10 } 10
          ['s', ' ', '-', '1', '1', '\n'] 3
        = { app := { Application_construct with pot_pos := 10 }, pot := 10,
            msg := some msgThrottleOOB } := by
  refine ⟨?_, ?_, ?_, ?_⟩
  · exact c3_amended.1 Application_construct 5 3 ['1', '0', '0']
      (by decide) (by decide) (by decide) (by decide) (by decide)
  · exact c3_amended.2.1 Application_construct 5 3 ['9', '9']
      (by decide) (by decide) (by decide) (by decide) (by decide) (by decide)
  · exact c3_amended.2.2.1 { Application_construct with pot_pos := 10 } 10 3 ['-', '5']
      (by decide) (by decide) (by decide) (by decide) (by decide) (by decide)
  · exact c3_amended.2.2.2 { Application_construct with pot_pos := 10 } 10 3 ['-', '1', '1']
      (by decide) (by decide) (by decide) (by decide) (by decide)

/-! ### Claim C6 -/

/-- C6 (counterexample): `t 50 -5` has a numeric but out-of-range
duration (-5 ≤ 0), which the claim says is rejected with a message and
no state mutation.  The source converts it to `uint64_t`
(2^64 - 5 > 0), accepts the command, overwrites `target_pos` and
`steps`, arms the per-step timer, and prints nothing. -/
theorem c6_counterexample :
    (executeCommand Application_construct 0 ['t', ' ', '5', '0', ' ', '-', '5', '\n'] 0).app.target_pos
        = 50
    ∧ (executeCommand Application_construct 0 ['t', ' ', '5', '0', ' ', '-', '5', '\n'] 0).app.steps
        = 50
    ∧ (executeCommand Application_construct 0 ['t', ' ', '5', '0', ' ', '-', '5', '\n'] 0).app.linear_cmd_timer.running
        = true
    ∧ (executeCommand Application_construct 0 ['t', ' ', '5', '0', ' ', '-', '5', '\n'] 0).msg
        = none := by
  refine ⟨?_, ?_, ?_, ?_⟩ <;> decide

/-- C6 (amended): every rejection path of the interpreter leaves the
application and the wiper unchanged, and emits a rejection message —
except that (a) a `t` command whose duration token is non-numeric and
differs from the tokenizer's `"NULL"` sentinel is dropped silently
(no message), and (b) a `t` command with a negative numeric duration is
not rejected at all: the `uint64_t` conversion makes it positive and
the command is accepted (see the counterexample), so only duration 0
reaches the "Time out of bounds" rejection among numeric durations. -/
theorem c6_amended :
    (∀ (app : App) (pot n : Nat) (c0 : Char) (rest : List Char),
        isSep (toLowerChar c0) = false →
        toLowerChar c0 ≠ 't' → toLowerChar c0 ≠ 's' → toLowerChar c0 ≠ 'w' →
        toLowerChar c0 ≠ 'r' → toLowerChar c0 ≠ 'q' →
        executeCommand app pot (c0 :: rest ++ ['\n']) n
          = { app := app, pot := pot, msg := some msgUnknown })
    ∧ (∀ (app : App) (pot n : Nat) (arg1 arg2 : List Char),
        arg1 ≠ [] → (∀ x ∈ arg1, isSep x = false) → toLowerList arg1 = arg1 →
        arg2 ≠ [] → (∀ x ∈ arg2, isSep x = false) → toLowerList arg2 = arg2 →
        isNumeric arg1 = false →
        executeCommand app pot ('t' :: ' ' :: arg1 ++ ' ' :: arg2 ++ ['\n']) n
          = { app := app, pot := pot, msg := some msgBadArgT })
    ∧ (∀ (app : App) (pot n : Nat) (arg1 arg2 : List Char),
        arg1 ≠ [] → (∀ x ∈ arg1, isSep x = false) → toLowerList arg1 = arg1 →
        arg2 ≠ [] → (∀ x ∈ arg2, isSep x = false) → toLowerList arg2 = arg2 →
        isNumeric arg1 = true → (toInt arg1 < 0 ∨ 100 ≤ toInt arg1) →
        executeCommand app pot ('t' :: ' ' :: arg1 ++ ' ' :: arg2 ++ ['\n']) n
          = { app := app, pot := pot, msg := some msgThrottleOOB })
    ∧ (∀ (app : App) (pot n : Nat) (arg1 arg2 : List Char),
        arg1 ≠ [] → (∀ x ∈ arg1, isSep x = false) → toLowerList arg1 = arg1 →
        arg2 ≠ [] → (∀ x ∈ arg2, isSep x = false) → toLowerList arg2 = arg2 →
        isNumeric arg1 = true → 0 ≤ toInt arg1 → toInt arg1 < 100 →
        isNumeric arg2 = true → toUInt64 (toInt arg2) = 0 →
        executeCommand app pot ('t' :: ' ' :: arg1 ++ ' ' :: arg2 ++ ['\n']) n
          = { app := app, pot := pot, msg := some msgTimeOOB })
    ∧ (∀ (app : App) (pot n : Nat) (arg1 arg2 : List Char),
        arg1 ≠ [] → (∀ x ∈ arg1, isSep x = false) → toLowerList arg1 = arg1 →
        arg2 ≠ [] → (∀ x ∈ arg2, isSep x = false) → toLowerList arg2 = arg2 →
        isNumeric arg1 = true → 0 ≤ toInt arg1 → toInt arg1 < 100 →
        isNumeric arg2 = false → arg2 ≠ NULLSTR →
        executeCommand app pot ('t' :: ' ' :: arg1 ++ ' ' :: arg2 ++ ['\n']) n
          = { app := app, pot := pot, msg := none })
    ∧ (∀ (app : App) (pot n : Nat) (arg1 : List Char),
        arg1 ≠ [] → (∀ x ∈ arg1, isSep x = false) → toLowerList arg1 = arg1 →
        isNumeric arg1 = false →
        executeCommand app pot ('s' :: ' ' :: arg1 ++ ['\n']) n
          = { app := app, pot := pot, msg := some msgBadArgS })
    ∧ (∀ (app : App) (pot n : Nat) (arg1 : List Char),
        arg1 ≠ [] → (∀ x ∈ arg1, isSep x = false) → toLowerList arg1 = arg1 →
        isNumeric arg1 = true →
        ((app.pot_pos : Int) + toInt arg1 < 0 ∨ 100 ≤ (app.pot_pos : Int) + toInt arg1) →
        executeCommand app pot ('s' :: ' ' :: arg1 ++ ['\n']) n
          = { app := app, pot := pot, msg := some msgThrottleOOB })
    ∧ (∀ (app : App) (pot n : Nat) (arg1 : List Char),
        arg1 ≠ [] → (∀ x ∈ arg1, isSep x = false) → toLowerList arg1 = arg1 →
        isNumeric arg1 = false →
        executeCommand app pot ('w' :: ' ' :: arg1 ++ ['\n']) n
          = { app := app, pot := pot, msg := some msgBadArgW })
    ∧ (∀ (app : App) (pot n : Nat) (arg1 : List Char),
        arg1 ≠ [] → (∀ x ∈ arg1, isSep x = false) → toLowerList arg1 = arg1 →
        isNumeric arg1 = true → toInt arg1 ≤ 0 →
        executeCommand app pot ('w' :: ' ' :: arg1 ++ ['\n']) n
          = { app := app, pot := pot, msg := some msgTimeOOB }) := by
  refine ⟨?_, ?_, ?_, ?_, ?_, ?_, ?_, ?_, ?_⟩
  · intro app pot n c0 rest hc h1 h2 h3 h4 h5
    exact executeCommand_default_eval app pot n c0 rest hc h1 h2 h3 h4 h5
  · intro app pot n arg1 arg2 h1n h1s h1l h2n h2s h2l hnum
    rw [executeCommand_t2_eval app pot n arg1 arg2 h1n h1s h1l h2n h2s h2l, hnum]
    simp
  · intro app pot n arg1 arg2 h1n h1s h1l h2n h2s h2l hnum hoob
    rw [executeCommand_t2_eval app pot n arg1 arg2 h1n h1s h1l h2n h2s h2l, hnum]
    rw [if_pos rfl, if_neg (by omega)]
  · intro app pot n arg1 arg2 h1n h1s h1l h2n h2s h2l hnum h0 h100 hnum2 htime
    rw [executeCommand_t2_eval app pot n arg1 arg2 h1n h1s h1l h2n h2s h2l, hnum, hnum2, htime]
    rw [if_pos rfl, if_pos (by omega), if_pos rfl, if_neg (by omega)]
  · intro app pot n arg1 arg2 h1n h1s h1l h2n h2s h2l hnum h0 h100 hnum2 hnull
    rw [executeCommand_t2_eval app pot n arg1 arg2 h1n h1s h1l h2n h2s h2l, hnum, hnum2]
    rw [if_pos rfl, if_pos (by omega)]
    simp [hnull]
  · intro app pot n arg1 h1n h1s h1l hnum
    rw [executeCommand_s1_eval app pot n arg1 h1n h1s h1l, hnum]
    simp
  · intro app pot n arg1 h1n h1s h1l hnum hoob
    rw [executeCommand_s1_eval app pot n arg1 h1n h1s h1l, hnum]
    rw [if_pos rfl, if_neg (by omega)]
  · intro app pot n arg1 h1n h1s h1l hnum
    rw [executeCommand_w1_eval app pot n arg1 h1n h1s h1l, hnum]
    simp
  · intro app pot n arg1 h1n h1s h1l hnum hle
    rw [executeCommand_w1_eval app pot n arg1 h1n h1s h1l, hnum]
    rw [if_pos rfl, if_neg (by omega)]

/-- Witness for C6 (amended): concrete instances of every rejection
path — `x`, `t ab 5`, `t 100 5`, `t 50 0`, `t 50 abc` (silent),
`s ab`, `s 95` from 10, `w ab`, `w 0`. -/
theorem c6_witness :
    executeCommand Application_construct 4 ['x', '\n'] 2
        = { app := Application_construct, pot := 4, msg := some msgUnknown }
    ∧ executeCommand Application_construct 4 ['t', ' ', 'a', 'b', ' ', '5', '\n'] 2
        = { app := Application_construct, pot := 4, msg := some msgBadArgT }
    ∧ executeCommand Application_construct 4 ['t', ' ', '1', '0', '0', ' ', '5', '\n'] 2
        = { app := Application_construct, pot := 4, msg := some msgThrottleOOB }
    ∧ executeCommand Application_construct 4 ['t', ' ', '5', '0', ' ', '0', '\n'] 2
        = { app := Application_construct, pot := 4, msg := some msgTimeOOB }
    ∧ executeCommand Application_construct 4 ['t', ' ', '5', '0', ' ', 'a', 'b', 'c', '\n'] 2
        = { app := Application_construct, pot := 4, msg := none }
    ∧ executeCommand { Application_construct with pot_pos := 10 } 10 ['s', ' ', 'a', 'b', '\n'] 2
        = { app := { Application_construct with pot_pos := 10 }, pot := 10,
            msg := some msgBadArgS }
    ∧ executeCommand { Application_construct with pot_pos := 10 } 10
          ['s', ' ', '9', '5', '\n'] 2
        = { app := { Application_construct with pot_pos := 10 }, pot := 10,
            msg := some msgThrottleOOB }
    ∧ executeCommand Application_construct 4 ['w', ' ', 'a', 'b', '\n'] 2
        = { app := Application_construct, pot := 4, msg := some msgBadArgW }
    ∧ executeCommand Application_construct 4 ['w', ' ', '0', '\n'] 2
        = { app := Application_construct, pot := 4, msg := some msgTimeOOB } := by
  refine ⟨?_, ?_, ?_, ?_, ?_, ?_, ?_, ?_, ?_⟩
  · exact c6_amended.1 Application_construct 4 2 'x' []
      (by decide) (by decide) (by decide) (by decide) (by decide) (by decide)
  · exact c6_amended.2.1 Application_construct 4 2 ['a', 'b'] ['5']
      (by decide) (by decide) (by decide) (by decide) (by decide) (by decide) (by decide)
  · exact c6_amended.2.2.1 Application_construct 4 2 ['1', '0', '0'] ['5']
      (by decide) (by decide) (by decide) (by decide) (by decide) (by decide) (by decide)
      (by decide)
  · exact c6_amended.2.2.2.1 Application_construct 4 2 ['5', '0'] ['0']
      (by decide) (by decide) (by decide) (by decide) (by decide) (by decide) (by decide)
      (by decide) (by decide) (by decide) (by decide)
  · exact c6_amended.2.2.2.2.1 Application_construct 4 2 ['5', '0'] ['a', 'b', 'c']
      (by decide) (by decide) (by decide) (by decide) (by decide) (by decide) (by decide)
      (by decide) (by decide) (by decide) (by decide)
  · exact c6_amended.2.2.2.2.2.1 { Application_construct with pot_pos := 10 } 10 2 ['a', 'b']
      (by decide) (by decide) (by decide) (by decide)
  · exact c6_amended.2.2.2.2.2.2.1 { Application_construct with pot_pos := 10 } 10 2
      ['9', '5'] (by decide) (by decide) (by decide) (by decide) (by decide)
  · exact c6_amended.2.2.2.2.2.2.2.1 Application_construct 4 2 ['a', 'b']
      (by decide) (by decide) (by decide) (by decide)
  · exact c6_amended.2.2.2.2.2.2.2.2 Application_construct 4 2 ['0']
      (by decide) (by decide) (by decide) (by decide) (by decide)

/-! ### Claim C5 -/

/-- A timer restarted at `now` with positive duration is unexpired. -/
theorem SWTimer_start_not_expired (t : SWTimer) (now : Nat) (h : 0 < t.duration) :
    SWTimer_expired (SWTimer_start t now) now = false := by
  simp only [SWTimer_expired, SWTimer_start, Bool.not_true, Bool.false_or,
    decide_eq_false_iff_not]
  omega

/-- A carriage return is normalised to a line feed and also completes
the line. -/
theorem checkSerialRX_term (app : App) (buf : List Char) (now : Nat) (b : Char)
    (hb : b = ASCII_CR ∨ b = ASCII_LF) :
    checkSerialRX app buf now (some b)
      = { app :=
            { checkPriority
                { app with serial_timeout_timer := SWTimer_start app.serial_timeout_timer now }
                (buf ++ ['\n']) with
              command := buf ++ ['\n'] }
          buf := []
          valid := true
          ems := [] } := by
  rcases hb with hb | hb <;> subst hb <;> simp only [checkSerialRX] <;>
    norm_num [ASCII_CR, ASCII_LF, ECHO_EN]

/-- The line-assembler buffer is below capacity after every poll. -/
theorem checkSerialRX_buf_lt (app : App) (buf : List Char) (now : Nat) (b : Option Char) :
    (checkSerialRX app buf now b).buf.length < CMD_CHAR_LEN := by
  cases b with
  | none =>
    simp only [checkSerialRX]
    split
    · simp [CMD_CHAR_LEN]
    · rename_i hcond
      push_neg at hcond
      exact hcond.2
  | some c =>
    by_cases hb : c = ASCII_CR ∨ c = ASCII_LF
    · rw [checkSerialRX_term app buf now c hb]
      simp [CMD_CHAR_LEN]
    · push_neg at hb
      simp only [checkSerialRX, if_neg hb.1, if_neg hb.2]
      split
      · simp [CMD_CHAR_LEN]
      · rename_i hcond
        push_neg at hcond
        exact hcond.2.1

/-- A byte that is neither CR nor LF never completes a line. -/
theorem checkSerialRX_notterm_valid (app : App) (buf : List Char) (now : Nat) (b : Char)
    (hcr : b ≠ ASCII_CR) (hlf : b ≠ ASCII_LF) :
    (checkSerialRX app buf now (some b)).valid = false := by
  simp only [checkSerialRX, if_neg hcr, if_neg hlf]

/-- A delivered command is the buffer contents plus the line feed. -/
theorem checkSerialRX_valid_command (app : App) (buf : List Char) (now : Nat) (b : Char)
    (hv : (checkSerialRX app buf now (some b)).valid = true) :
    ((checkSerialRX app buf now (some b)).app.command).length = buf.length + 1 := by
  by_cases hb : b = ASCII_CR ∨ b = ASCII_LF
  · rw [checkSerialRX_term app buf now b hb]
    simp
  · push_neg at hb
    rw [checkSerialRX_notterm_valid app buf now b hb.1 hb.2] at hv
    exact absurd hv (by simp)

/-- A non-terminator data byte is appended to the buffer (no timeout,
below capacity). -/
theorem checkSerialRX_databyte (app : App) (buf : List Char) (now : Nat) (c : Char)
    (hcr : c ≠ ASCII_CR) (hlf : c ≠ ASCII_LF)
    (hdur : 0 < app.serial_timeout_timer.duration)
    (hlen : buf.length + 1 < CMD_CHAR_LEN) :
    checkSerialRX app buf now (some c)
      = { app := { app with serial_timeout_timer := SWTimer_start app.serial_timeout_timer now }
          buf := buf ++ [c]
          valid := false
          ems := [] } := by
  have hexp := SWTimer_start_not_expired app.serial_timeout_timer now hdur
  simp only [checkSerialRX, if_neg hcr, if_neg hlf, hexp]
  simp only [Bool.false_eq_true, false_or, List.length_append, List.length_cons,
    List.length_nil, Nat.zero_add, or_false]
  rw [if_neg (by omega)]

/-- Every command line the assembler ever delivers has length at most
`CMD_CHAR_LEN`: an over-capacity line can never be delivered in full. -/
theorem feedSerial_cmd_len (now : Nat) (bytes : List Char) :
    ∀ (app : App) (buf : List Char), buf.length < CMD_CHAR_LEN →
    ∀ cmd ∈ (feedSerial app buf now bytes).2.2, cmd.length ≤ CMD_CHAR_LEN := by
  induction bytes with
  | nil =>
    intro app buf hlen cmd hmem
    simp [feedSerial] at hmem
  | cons b bs ih =>
    intro app buf hlen cmd hmem
    simp only [feedSerial, List.mem_append] at hmem
    rcases hmem with hmem | hmem
    · rcases hv : (checkSerialRX app buf now (some b)).valid with _ | _
      · rw [hv] at hmem
        simp at hmem
      · rw [hv] at hmem
        simp at hmem
        rw [hmem]
        have := checkSerialRX_valid_command app buf now b hv
        omega
    · exact ih (checkSerialRX app buf now (some b)).app
        (checkSerialRX app buf now (some b)).buf
        (checkSerialRX_buf_lt app buf now (some b)) cmd hmem

/-- From an empty (or just reset) buffer, a line within capacity made of
plain data bytes and a terminating line feed is assembled and delivered
exactly once, as itself. -/
theorem feedSerial_clean_line (now : Nat) (body : List Char) :
    ∀ (app : App) (b : List Char),
    (∀ c ∈ body, c ≠ '\n' ∧ c ≠ '\r') →
    0 < app.serial_timeout_timer.duration →
    b.length + body.length + 1 ≤ CMD_CHAR_LEN →
    (feedSerial app b now (body ++ ['\n'])).2.2 = [(b ++ body) ++ ['\n']] := by
  induction body with
  | nil =>
    intro app b hbody hdur hlen
    simp only [List.nil_append, feedSerial]
    rw [checkSerialRX_term app b now '\n' (Or.inr rfl)]
    simp [feedSerial]
  | cons c cs ih =>
    intro app b hbody hdur hlen
    have hc := hbody c (List.mem_cons_self c cs)
    have hwrite := checkSerialRX_databyte app b now c
      (by simpa [ASCII_CR] using hc.2) (by simpa [ASCII_LF] using hc.1) hdur
      (by simp only [List.length_cons] at hlen ⊢; omega)
    simp only [List.cons_append, feedSerial, hwrite, Bool.false_eq_true, if_false,
      List.nil_append]
    have hrec := ih { app with serial_timeout_timer := SWTimer_start app.serial_timeout_timer now }
      (b ++ [c])
      (fun x hx => hbody x (List.mem_cons_of_mem c hx))
      (by simp [SWTimer_start, hdur])
      (by simp only [List.length_append, List.length_cons, List.length_nil] at hlen ⊢; omega)
    exact hrec.trans (by simp)

/-! ### C5 claim theorems -/

set_option maxRecDepth 20000 in
/-- C5 (counterexample): a single line of `CMD_CHAR_LEN` `'a'` bytes
followed by `q` and the line feed (66 bytes, exceeding the 64-byte
buffer) is fed to the assembler; the claim says no command is ever
delivered for that line, but the buffer silently resets at capacity and
the line's remaining bytes are assembled as a fresh line, so the
command `"q\n"` is delivered when the line's terminator arrives. -/
theorem c5_counterexample :
    (feedSerial Application_construct [] 5
        (List.replicate CMD_CHAR_LEN 'a' ++ ['q', '\n'])).2.2
      = [['q', '\n']] := by
  decide

/-- C5 (amended): the line assembler never delivers an over-capacity
line in full — every delivered command has length at most
`CMD_CHAR_LEN` — and after a reset a subsequent valid line (plain bytes
then a line feed, within capacity) is assembled and delivered exactly
as sent. -/
theorem c5_amended :
    (∀ (now : Nat) (bytes : List Char) (app : App) (buf : List Char),
        buf.length < CMD_CHAR_LEN →
        ∀ cmd ∈ (feedSerial app buf now bytes).2.2, cmd.length ≤ CMD_CHAR_LEN)
    ∧ (∀ (now : Nat) (body : List Char) (app : App),
        (∀ c ∈ body, c ≠ '\n' ∧ c ≠ '\r') →
        0 < app.serial_timeout_timer.duration →
        body.length + 1 ≤ CMD_CHAR_LEN →
        (feedSerial app [] now (body ++ ['\n'])).2.2 = [body ++ ['\n']]) := by
  constructor
  · intro now bytes
    exact feedSerial_cmd_len now bytes
  · intro now body app hbody hdur hlen
    have h := feedSerial_clean_line now body app [] hbody hdur (by simpa using hlen)
    simpa using h

set_option maxRecDepth 20000 in
/-- Witness for C5 (amended): the delivered remainder `"q\n"` of the
66-byte over-capacity feed respects the length bound, and the two-byte
line `"q\n"` sent alone is delivered as itself. -/
theorem c5_witness :
    (['q', '\n'] : List Char).length ≤ CMD_CHAR_LEN
    ∧ (feedSerial Application_construct [] 5 (['q'] ++ ['\n'])).2.2 = [['q'] ++ ['\n']] := by
  constructor
  · exact c5_amended.1 5 (List.replicate CMD_CHAR_LEN 'a' ++ ['q', '\n'])
      Application_construct [] (by decide) ['q', '\n'] (by decide)
  · exact c5_amended.2 5 ['q'] Application_construct (by decide) (by decide) (by decide)

/-! ### Claim C4 -/

/-- An operator-typed duration word that lower-cases to `null` (so
`NULL` in any case) matches neither `isNumeric` nor the upper-case
sentinel literal `"NULL"` compared by the source, so the command falls
through both branches: nothing is set and nothing is printed. -/
theorem executeCommand_typedNULL (app : App) (pot n : Nat) (arg1 arg2 : List Char)
    (h1n : arg1 ≠ []) (h1s : ∀ x ∈ arg1, isSep x = false) (h1l : toLowerList arg1 = arg1)
    (h2low : toLowerList arg2 = ['n', 'u', 'l', 'l'])
    (hnum : isNumeric arg1 = true) (h0 : 0 ≤ toInt arg1) (h99 : toInt arg1 < 100) :
    executeCommand app pot ('t' :: ' ' :: arg1 ++ ' ' :: arg2 ++ ['\n']) n
      = { app := app, pot := pot, msg := none } := by
  have hlt : toLowerChar 't' = 't' := by decide
  have hlow : toLowerList ('t' :: ' ' :: arg1 ++ ' ' :: arg2 ++ ['\n'])
      = 't' :: ' ' :: arg1 ++ ' ' :: ['n', 'u', 'l', 'l'] ++ ['\n'] := by
    simp only [toLowerList] at h1l h2low ⊢
    simp [h1l, h2low, hlt, toLowerChar_space, toLowerChar_lf]
  obtain ⟨ht0, ht1, ht2⟩ := tokens_two 't' arg1 ['n', 'u', 'l', 'l'] (by decide) h1n h1s
    (by decide) (by decide)
  simp only [executeCommand, nextWord, hlow, if_true, if_false, Bool.false_eq_true, ht0, ht1,
    ht2, List.headD_cons, hnum]
  rw [if_pos ⟨h0, h99⟩,
    if_neg (by decide : ¬isNumeric ['n', 'u', 'l', 'l'] = true),
    if_neg (by decide : ¬(['n', 'u', 'l', 'l'] : List Char) = NULLSTR)]

set_option maxRecDepth 20000 in
/-- C4 (counterexample): the operator sends `t 50 NULL` (the literal
word, upper case, as the claim's case-insensitive interface allows).
The interpreter lower-cases the whole line, so the token becomes
`"null"`, which is neither numeric nor equal to the case-sensitively
compared sentinel `"NULL"`; the command is silently dropped and the
wiper stays at 7 instead of moving to 50 in that cycle. -/
theorem c4_counterexample :
    ((Application_loop
        { app := Application_construct
          pot := 7
          old_pot_pos := 7
          buf := ['t', ' ', '5', '0', ' ', 'N', 'U', 'L', 'L'] }
        { now := 0, byteIn := some '\n', adc := 0 }).1).pot = 7
    ∧ executeCommand Application_construct 7
        ['t', ' ', '5', '0', ' ', 'N', 'U', 'L', 'L', '\n'] 0
        = { app := Application_construct, pot := 7, msg := none } := by
  constructor <;> decide

/-- C4 (amended): the immediate-set path is triggered by the
tokenizer's `"NULL"` sentinel, i.e. by *omitting* the duration
argument: for `t <target>` with a valid target received in `Idle`, the
wiper is set to the target in the same poll cycle, the machine moves to
`Executing` (never `Linear`; `steps` is untouched) and no end-of-command
marker is emitted that cycle.  An operator-typed literal `NULL` (any
case) is lower-cased to `"null"` and matches neither branch: the
command is silently ignored. -/
theorem c4_amended :
    (∀ (sys : Sys) (e : Env) (arg1 : List Char),
        sys.app.appState = AppStates.Idle →
        sys.app.cmd_finished_flag = false →
        sys.app.cmd_high_priority = false →
        sys.buf = 't' :: ' ' :: arg1 →
        e.byteIn = some '\n' →
        arg1 ≠ [] → (∀ x ∈ arg1, isSep x = false) → toLowerList arg1 = arg1 →
        isNumeric arg1 = true → 0 ≤ toInt arg1 → toInt arg1 < 100 →
        ((Application_loop sys e).1).pot = (toInt arg1).toNat
        ∧ ((Application_loop sys e).1).app.appState = AppStates.Executing
        ∧ ((Application_loop sys e).1).app.steps = sys.app.steps
        ∧ ((Application_loop sys e).2).count Emit.endMarker = 0)
    ∧ (∀ (app : App) (pot n : Nat) (arg1 arg2 : List Char),
        arg1 ≠ [] → (∀ x ∈ arg1, isSep x = false) → toLowerList arg1 = arg1 →
        toLowerList arg2 = ['n', 'u', 'l', 'l'] →
        isNumeric arg1 = true → 0 ≤ toInt arg1 → toInt arg1 < 100 →
        executeCommand app pot ('t' :: ' ' :: arg1 ++ ' ' :: arg2 ++ ['\n']) n
          = { app := app, pot := pot, msg := none }) := by
  constructor
  · intro sys e arg1 hIdle hflag hhp hbuf hb h1n h1s h1l hnum h0 h99
    obtain ⟨st, dt, nv, ems1, hems1, hloop⟩ :=
      loop_idle_dispatch sys e 't' (' ' :: arg1) hIdle hflag hhp hbuf hb (by decide)
    rw [hloop]
    have hex := executeCommand_t1_eval
      { sys.app with
        pot_v := e.adc
        pot_ohms := potOhm sys.pot
        pot_pos := sys.pot
        mes_timestamp := e.now
        adc_settling_timer := st
        data_step_timer := dt
        new_value_flag := nv
        cmd_finished_flag := false
        serial_timeout_timer := SWTimer_start sys.app.serial_timeout_timer e.now
        command := ('t' :: ' ' :: arg1) ++ ['\n'] }
      sys.pot e.now arg1 h1n h1s h1l
    rw [hnum, if_pos rfl, if_pos ⟨h0, by omega⟩] at hex
    simp only [List.cons_append] at hex ⊢
    rw [hex]
    refine ⟨?_, ?_, ?_, ?_⟩
    · simp [setPositionI_small h0 (by omega)]
    · simp
    · simp
    · rcases hems1 with h | h <;> rw [h] <;> simp [optEmit]
  · intro app pot n arg1 arg2 h1n h1s h1l h2low hnum h0 h99
    exact executeCommand_typedNULL app pot n arg1 arg2 h1n h1s h1l h2low hnum h0 h99

set_option maxRecDepth 20000 in
/-- Witness for C4 (amended): `t 50` with the duration omitted, sent
while Idle at position 7, sets the wiper to 50 in the same cycle; and
`t 50 NULL` typed literally is silently dropped. -/
theorem c4_witness :
    ((Application_loop
        { app := Application_construct
          pot := 7
          old_pot_pos := 7
          buf := ['t', ' ', '5', '0'] }
        { now := 0, byteIn := some '\n', adc := 0 }).1).pot = 50
    ∧ executeCommand Application_construct 7
        ['t', ' ', '5', '0', ' ', 'n', 'U', 'L', 'l', '\n'] 0
        = { app := Application_construct, pot := 7, msg := none } := by
  constructor
  · have h := (c4_amended.1
      { app := Application_construct
        pot := 7
        old_pot_pos := 7
        buf := ['t', ' ', '5', '0'] }
      { now := 0, byteIn := some '\n', adc := 0 } ['5', '0']
      rfl rfl rfl rfl rfl (by decide) (by decide) (by decide) (by decide) (by decide)
      (by decide)).1
    rw [h]
    decide
  · exact c4_amended.2 Application_construct 7 0 ['5', '0'] ['n', 'U', 'L', 'l']
      (by decide) (by decide) (by decide) (by decide) (by decide) (by decide) (by decide)

/-! ### Claim C9 -/

/-- `primaryFSM` in `Linear` while the raw line `Q...` completes, with
the per-step timer unexpired and steps remaining: the priority flag is
not raised (raw `'Q'` ≠ `'q'`), the command is stored, the state stays
`Linear` and nothing moves. -/
theorem primaryFSM_linear_lfQ (app : App) (pot : Nat) (rest : List Char) (now : Nat)
    (hState : app.appState = AppStates.Linear)
    (hexp : SWTimer_expired app.linear_cmd_timer now = false)
    (hsteps : app.steps ≠ 0) :
    primaryFSM app pot ('Q' :: rest) now (some '\n')
      = { app :=
            { app with
              serial_timeout_timer := SWTimer_start app.serial_timeout_timer now
              command := ('Q' :: rest) ++ ['\n']
              appState := AppStates.Linear }
          pot := pot
          buf := []
          ems := [] } := by
  have hrx := checkSerialRX_term app ('Q' :: rest) now '\n' (Or.inr rfl)
  rw [checkPriority_not_q _ _ (by simp)] at hrx
  simp only [primaryFSM, hrx, hState]
  simp [hexp, hsteps]

/-- C9: the priority check compares the raw (not lower-cased) first
byte against `'q'`, so a line starting with upper-case `'Q'` never sets
the high-priority flag; dispatched normally from `Idle` it still resets
the application (the interpreter lower-cases it); and completing while
a ramp is in progress it cannot preempt it: the machine stays in
`Linear`, nothing is reset, and no high-priority marker is emitted. -/
theorem c9_uppercase_q_not_priority :
    (∀ (app : App) (rest : List Char), checkPriority app ('Q' :: rest) = app)
    ∧ (∀ (app : App) (pot n : Nat) (rest : List Char),
        executeCommand app pot ('Q' :: rest ++ ['\n']) n
          = { app := Application_construct, pot := setPositionI 0, msg := none })
    ∧ (∀ (sys : Sys) (e : Env) (rest : List Char),
        sys.app.appState = AppStates.Linear →
        sys.app.cmd_high_priority = false →
        sys.app.cmd_finished_flag = false →
        sys.buf = 'Q' :: rest →
        e.byteIn = some '\n' →
        SWTimer_expired sys.app.linear_cmd_timer e.now = false →
        sys.app.steps ≠ 0 →
        ((Application_loop sys e).1).app.appState = AppStates.Linear
        ∧ ((Application_loop sys e).1).app.cmd_high_priority = false
        ∧ ((Application_loop sys e).1).app.target_pos = sys.app.target_pos
        ∧ ((Application_loop sys e).1).app.steps = sys.app.steps
        ∧ Emit.hpMarker ∉ (Application_loop sys e).2) := by
  refine ⟨?_, ?_, ?_⟩
  · intro app rest
    exact checkPriority_not_q app ('Q' :: rest) (by simp)
  · intro app pot n rest
    exact executeCommand_q_eval app pot n 'Q' rest (by decide)
  · intro sys e rest hLin hhp hflag hbuf hb hexp hsteps
    obtain ⟨st, dt, nv, hpre, hfems⟩ := preFinish_spec sys e
    have hfsm := primaryFSM_linear_lfQ
      { sys.app with
        pot_v := e.adc
        pot_ohms := potOhm sys.pot
        pot_pos := sys.pot
        mes_timestamp := e.now
        adc_settling_timer := st
        data_step_timer := dt
        new_value_flag := nv
        cmd_finished_flag := false }
      sys.pot rest e.now hLin hexp hsteps
    simp only [Application_loop, hb, hbuf, hpre, hfems, hflag, hfsm]
    simp only [hpPhase, hhp]
    refine ⟨by simp, by simp [hhp], by simp, by simp, ?_⟩
    rcases telemetryPhase_ems (settlePhase (pollPot sys.app sys.pot e) sys.old_pot_pos e) e
      with h | h <;> simp [h, hhp]

/-- Witness for C9: `checkPriority` ignores `"Q"`, `executeCommand`
still resets on `"Q\n"` from the normal path, and a concrete mid-ramp
state receiving `"Q\n"` keeps ramping without a high-priority marker. -/
theorem c9_witness :
    checkPriority Application_construct ['Q'] = Application_construct
    ∧ executeCommand Application_construct 3 ['Q', '\n'] 0
        = { app := Application_construct, pot := setPositionI 0, msg := none }
    ∧ ((Application_loop
          { app :=
              { Application_construct with
                appState := AppStates.Linear
                steps := 5
                target_pos := 50
                pot_pos := 45
                linear_cmd_timer := SWTimer_start (SWTimer_construct 20) 0 }
            pot := 45
            old_pot_pos := 45
            buf := ['Q'] }
          { now := 5, byteIn := some '\n', adc := 0 }).1).app.appState = AppStates.Linear := by
  refine ⟨c9_uppercase_q_not_priority.1 Application_construct [], ?_, ?_⟩
  · exact c9_uppercase_q_not_priority.2.1 Application_construct 3 0 []
  · exact (c9_uppercase_q_not_priority.2.2
      { app :=
          { Application_construct with
            appState := AppStates.Linear
            steps := 5
            target_pos := 50
            pot_pos := 45
            linear_cmd_timer := SWTimer_start (SWTimer_construct 20) 0 }
        pot := 45
        old_pot_pos := 45
        buf := ['Q'] }
      { now := 5, byteIn := some '\n', adc := 0 } []
      rfl rfl rfl rfl rfl (by decide) (by decide)).1

/-! ### Claim C7 -/

/-- When a raw `q...` line completes while the machine is in `Linear` or
`Waiting`, `checkPriority` raises the high-priority flag and the line is
stored as the pending command, whatever else the state machine does that
cycle. -/
theorem primaryFSM_rx_q (app : App) (pot : Nat) (rest : List Char) (now : Nat)
    (hState : app.appState = AppStates.Linear ∨ app.appState = AppStates.Waiting) :
    (primaryFSM app pot ('q' :: rest) now (some '\n')).app.cmd_high_priority = true
    ∧ (primaryFSM app pot ('q' :: rest) now (some '\n')).app.command = ('q' :: rest) ++ ['\n'] := by
  have hrx := checkSerialRX_term app ('q' :: rest) now '\n' (Or.inr rfl)
  rw [checkPriority_q _ _ (by simp)] at hrx
  rcases hState with h | h <;>
    constructor <;>
    (simp only [primaryFSM, hrx, h]; (repeat' split) <;> simp)

/-- The high-priority path with a pending `q` line: emit the marker,
drive the wiper to 0 and reconstruct the application. -/
theorem hpPhase_q (app : App) (pot now : Nat) (rest : List Char)
    (hhp : app.cmd_high_priority = true)
    (hcmd : app.command = 'q' :: rest ++ ['\n']) :
    hpPhase app pot now = (Application_construct, 0, [Emit.hpMarker]) := by
  unfold hpPhase
  rw [if_pos hhp, hcmd, executeCommand_q_eval app pot now 'q' rest (by decide)]
  simp [optEmit, setPositionI]

/-- C7: in the poll cycle in which a line whose raw first byte is `'q'`
completes while the machine is in `Linear` or `Waiting`, the
application is immediately reconstructed to its initial values with the
potentiometer driven to position 0 and the state back to `Idle`,
regardless of remaining ramp steps or wait time; the high-priority flag
is raised by `checkPriority` on line completion and is clear again once
the reset has been dispatched, and the high-priority marker is emitted
in that same cycle. -/
theorem c7_priority_reset (sys : Sys) (e : Env) (rest : List Char)
    (hState : sys.app.appState = AppStates.Linear ∨ sys.app.appState = AppStates.Waiting)
    (hbuf : sys.buf = 'q' :: rest)
    (hb : e.byteIn = some '\n') :
    ((Application_loop sys e).1).app = Application_construct
    ∧ ((Application_loop sys e).1).pot = 0
    ∧ ((Application_loop sys e).1).app.appState = AppStates.Idle
    ∧ ((Application_loop sys e).1).app.cmd_high_priority = false
    ∧ Emit.hpMarker ∈ (Application_loop sys e).2
    ∧ (∀ (app0 : App) (r0 : List Char),
        ((checkSerialRX app0 ('q' :: r0) e.now (some '\n')).app).cmd_high_priority = true) := by
  obtain ⟨st, dt, nv, hpre, hfems⟩ := preFinish_spec sys e
  have hstatePre :
      ({ sys.app with
          pot_v := e.adc
          pot_ohms := potOhm sys.pot
          pot_pos := sys.pot
          mes_timestamp := e.now
          adc_settling_timer := st
          data_step_timer := dt
          new_value_flag := nv
          cmd_finished_flag := false } : App).appState = AppStates.Linear
        ∨ ({ sys.app with
              pot_v := e.adc
              pot_ohms := potOhm sys.pot
              pot_pos := sys.pot
              mes_timestamp := e.now
              adc_settling_timer := st
              data_step_timer := dt
              new_value_flag := nv
              cmd_finished_flag := false } : App).appState = AppStates.Waiting := hState
  have hf := primaryFSM_rx_q
    { sys.app with
      pot_v := e.adc
      pot_ohms := potOhm sys.pot
      pot_pos := sys.pot
      mes_timestamp := e.now
      adc_settling_timer := st
      data_step_timer := dt
      new_value_flag := nv
      cmd_finished_flag := false }
    sys.pot rest e.now hstatePre
  have hq := fun p => hpPhase_q _ p e.now rest hf.1 (by rw [hf.2])
  simp only [Application_loop, hb, hbuf, hpre, hfems, hq]
  repeat' apply And.intro
  all_goals first
    | rfl
    | (simp; done)
    | (intro app0 r0
       have hrx0 := checkSerialRX_term app0 ('q' :: r0) e.now '\n' (Or.inr rfl)
       rw [checkPriority_q _ _ (by simp)] at hrx0
       rw [hrx0])

/-- Witness for C7: a concrete mid-ramp state receiving `"q\n"` is
fully reset in the same cycle. -/
theorem c7_witness :
    ((Application_loop
        { app :=
            { Application_construct with
              appState := AppStates.Linear
              steps := 5
              target_pos := 50
              pot_pos := 45 }
          pot := 45
          old_pot_pos := 45
          buf := ['q'] }
        { now := 5, byteIn := some '\n', adc := 0 }).1).app = Application_construct
    ∧ ((Application_loop
        { app :=
            { Application_construct with
              appState := AppStates.Linear
              steps := 5
              target_pos := 50
              pot_pos := 45 }
          pot := 45
          old_pot_pos := 45
          buf := ['q'] }
        { now := 5, byteIn := some '\n', adc := 0 }).1).pot = 0 := by
  have h := c7_priority_reset
    { app :=
        { Application_construct with
          appState := AppStates.Linear
          steps := 5
          target_pos := 50
          pot_pos := 45 }
      pot := 45
      old_pot_pos := 45
      buf := ['q'] }
    { now := 5, byteIn := some '\n', adc := 0 } []
    (Or.inl rfl) rfl rfl
  exact ⟨h.1, h.2.1⟩

/-! ### Claim C1: quiet-cycle state-machine lemmas -/

/-- `primaryFSM` in `Idle` with no serial byte: nothing happens. -/
theorem primaryFSM_idle_none (app : App) (pot : Nat) (buf : List Char) (now : Nat)
    (h : app.appState = AppStates.Idle) :
    primaryFSM app pot buf now none
      = { app := app
          pot := pot
          buf := (checkSerialRX app buf now none).buf
          ems := [] } := by
  have e1 : (checkSerialRX app buf now none).app = app := rfl
  have e2 : (checkSerialRX app buf now none).valid = false := rfl
  have e3 : (checkSerialRX app buf now none).ems = [] := rfl
  simp only [primaryFSM, h, e1, e2, e3, Bool.false_eq_true, if_false]
  rw [← h]

/-- `primaryFSM` in `Executing` with no byte and the wait timer expired:
enter `Linear` iff steps remain, otherwise finish to `Idle`. -/
theorem primaryFSM_executing_none (app : App) (pot : Nat) (buf : List Char) (now : Nat)
    (hState : app.appState = AppStates.Executing)
    (hw : SWTimer_expired app.wait_cmd_timer now = true) :
    primaryFSM app pot buf now none
      = (if app.steps = 0 then
          { app := { app with cmd_finished_flag := true, appState := AppStates.Idle }
            pot := pot
            buf := (checkSerialRX app buf now none).buf
            ems := [] }
        else
          { app := { app with appState := AppStates.Linear }
            pot := pot
            buf := (checkSerialRX app buf now none).buf
            ems := [] }) := by
  have e1 : (checkSerialRX app buf now none).app = app := rfl
  have e3 : (checkSerialRX app buf now none).ems = [] := rfl
  simp only [primaryFSM, hState, e1, e3, hw]
  by_cases hs : app.steps = 0 <;> simp [hs]

/-- `primaryFSM` in `Linear` with no byte and the per-step timer
expired: move one unit toward the target (direction recomputed from the
polled position), decrement `steps`, re-arm the timer; finish to `Idle`
when the decrement reaches zero. -/
theorem primaryFSM_linear_none_step (app : App) (pot : Nat) (buf : List Char) (now : Nat)
    (hState : app.appState = AppStates.Linear)
    (hexp : SWTimer_expired app.linear_cmd_timer now = true) :
    primaryFSM app pot buf now none
      = (if app.steps - 1 = 0 then
          { app :=
              { app with
                steps := app.steps - 1
                linear_cmd_timer := SWTimer_start app.linear_cmd_timer now
                cmd_finished_flag := true
                appState := AppStates.Idle }
            pot := setPositionI ((app.pot_pos : Int)
                    + (if app.target_pos > app.pot_pos then 1 else -1))
            buf := (checkSerialRX app buf now none).buf
            ems := [] }
        else
          { app :=
              { app with
                steps := app.steps - 1
                linear_cmd_timer := SWTimer_start app.linear_cmd_timer now
                appState := AppStates.Linear }
            pot := setPositionI ((app.pot_pos : Int)
                    + (if app.target_pos > app.pot_pos then 1 else -1))
            buf := (checkSerialRX app buf now none).buf
            ems := [] }) := by
  have e1 : (checkSerialRX app buf now none).app = app := rfl
  have e3 : (checkSerialRX app buf now none).ems = [] := rfl
  simp only [primaryFSM, hState, e1, e3, hexp]
  by_cases hs : app.steps - 1 = 0 <;> simp [hs]

/-- One quiet `Application_loop` cycle in `Idle`: the state machine does
nothing; the flag (if set) is consumed by the marker emission. -/
theorem loop_idle_cycle (sys : Sys) (e : Env)
    (hState : sys.app.appState = AppStates.Idle)
    (hhp : sys.app.cmd_high_priority = false)
    (hb : e.byteIn = none) :
    ((Application_loop sys e).1).app.appState = AppStates.Idle
    ∧ ((Application_loop sys e).1).app.cmd_finished_flag = false
    ∧ ((Application_loop sys e).1).app.cmd_high_priority = false
    ∧ ((Application_loop sys e).1).app.steps = sys.app.steps
    ∧ ((Application_loop sys e).1).pot = sys.pot := by
  obtain ⟨st, dt, nv, hpre, hfems⟩ := preFinish_spec sys e
  have hfsm := primaryFSM_idle_none
    { sys.app with
      pot_v := e.adc
      pot_ohms := potOhm sys.pot
      pot_pos := sys.pot
      mes_timestamp := e.now
      adc_settling_timer := st
      data_step_timer := dt
      new_value_flag := nv
      cmd_finished_flag := false }
    sys.pot sys.buf e.now hState
  simp only [Application_loop, hb, hpre, hfems, hfsm]
  simp only [hpPhase, hhp]
  refine ⟨by simp [hState], by simp, by simp [hhp], by simp, by simp⟩

/-- One quiet `Application_loop` cycle in `Executing` with the wait
timer expired: move to `Linear` when steps remain (everything else
untouched), or finish to `Idle` raising the flag when none do. -/
theorem loop_executing_cycle (sys : Sys) (e : Env)
    (hState : sys.app.appState = AppStates.Executing)
    (hflag : sys.app.cmd_finished_flag = false)
    (hhp : sys.app.cmd_high_priority = false)
    (hb : e.byteIn = none)
    (hw : SWTimer_expired sys.app.wait_cmd_timer e.now = true) :
    (sys.app.steps ≠ 0 →
      ((Application_loop sys e).1).app.appState = AppStates.Linear
      ∧ ((Application_loop sys e).1).app.cmd_finished_flag = false
      ∧ ((Application_loop sys e).1).app.cmd_high_priority = false
      ∧ ((Application_loop sys e).1).app.steps = sys.app.steps
      ∧ ((Application_loop sys e).1).app.target_pos = sys.app.target_pos
      ∧ ((Application_loop sys e).1).app.linear_cmd_timer = sys.app.linear_cmd_timer
      ∧ ((Application_loop sys e).1).pot = sys.pot)
    ∧ (sys.app.steps = 0 →
      ((Application_loop sys e).1).app.appState = AppStates.Idle
      ∧ ((Application_loop sys e).1).app.cmd_finished_flag = true
      ∧ ((Application_loop sys e).1).app.cmd_high_priority = false
      ∧ ((Application_loop sys e).1).app.steps = 0
      ∧ ((Application_loop sys e).1).pot = sys.pot) := by
  obtain ⟨st, dt, nv, hpre, hfems⟩ := preFinish_spec sys e
  have hfsm := primaryFSM_executing_none
    { sys.app with
      pot_v := e.adc
      pot_ohms := potOhm sys.pot
      pot_pos := sys.pot
      mes_timestamp := e.now
      adc_settling_timer := st
      data_step_timer := dt
      new_value_flag := nv
      cmd_finished_flag := false }
    sys.pot sys.buf e.now hState hw
  constructor
  · intro hs
    rw [if_neg (by simpa using hs)] at hfsm
    simp only [Application_loop, hb, hpre, hfems, hflag, hfsm]
    simp only [hpPhase, hhp]
    refine ⟨by simp, by simp, by simp [hhp], by simp, by simp, by simp, by simp⟩
  · intro hs
    rw [if_pos (by simpa using hs)] at hfsm
    simp only [Application_loop, hb, hpre, hfems, hflag, hfsm]
    simp only [hpPhase, hhp]
    refine ⟨by simp, by simp, by simp [hhp], by simp [hs], by simp⟩

/-- One quiet ramp cycle: with the per-step timer expired, the wiper
moves one unit toward the target (as polled this cycle), `steps`
decrements, the timer is re-armed, and the machine finishes to `Idle`
with the flag raised exactly when the decrement reaches zero. -/
theorem loop_linear_cycle (sys : Sys) (e : Env) (target : Nat)
    (hState : sys.app.appState = AppStates.Linear)
    (hflag : sys.app.cmd_finished_flag = false)
    (hhp : sys.app.cmd_high_priority = false)
    (hb : e.byteIn = none)
    (hexp : SWTimer_expired sys.app.linear_cmd_timer e.now = true)
    (htp : sys.app.target_pos = target)
    (htle : target ≤ 99) (hple : sys.pot ≤ 99)
    (hne : sys.app.steps ≠ 0)
    (hdist : sys.app.steps = ((target : Int) - (sys.pot : Int)).natAbs) :
    ((Application_loop sys e).1).pot
        = (if sys.pot < target then sys.pot + 1 else sys.pot - 1)
    ∧ ((Application_loop sys e).1).app.steps = sys.app.steps - 1
    ∧ ((Application_loop sys e).1).app.target_pos = target
    ∧ ((Application_loop sys e).1).app.cmd_high_priority = false
    ∧ ((Application_loop sys e).1).app.linear_cmd_timer
        = SWTimer_start sys.app.linear_cmd_timer e.now
    ∧ (sys.app.steps - 1 = 0 →
        ((Application_loop sys e).1).app.appState = AppStates.Idle
        ∧ ((Application_loop sys e).1).app.cmd_finished_flag = true)
    ∧ (sys.app.steps - 1 ≠ 0 →
        ((Application_loop sys e).1).app.appState = AppStates.Linear
        ∧ ((Application_loop sys e).1).app.cmd_finished_flag = false) := by
  have hne2 : target ≠ sys.pot := by
    intro hcontra
    apply hne
    rw [hdist, hcontra]
    simp
  have hsp : setPositionI ((sys.pot : Int) + (if target > sys.pot then 1 else -1))
      = (if sys.pot < target then sys.pot + 1 else sys.pot - 1) := by
    by_cases hcmp : sys.pot < target
    · rw [if_pos hcmp, if_pos hcmp, setPositionI_small (by omega) (by omega)]
      omega
    · have htlt : target < sys.pot := by omega
      rw [if_neg hcmp, if_neg hcmp, setPositionI_small (by omega) (by omega)]
      omega
  obtain ⟨st, dt, nv, hpre, hfems⟩ := preFinish_spec sys e
  have hfsm := primaryFSM_linear_none_step
    { sys.app with
      pot_v := e.adc
      pot_ohms := potOhm sys.pot
      pot_pos := sys.pot
      mes_timestamp := e.now
      adc_settling_timer := st
      data_step_timer := dt
      new_value_flag := nv
      cmd_finished_flag := false }
    sys.pot sys.buf e.now hState hexp
  by_cases hdone : sys.app.steps - 1 = 0
  · rw [if_pos (by simpa using hdone)] at hfsm
    simp only [Application_loop, hb, hpre, hfems, hflag, hfsm]
    simp only [hpPhase, hhp]
    refine ⟨?_, by simp, by simp [htp], by simp [hhp], by simp, fun h => ⟨by simp, by simp⟩,
      fun h => absurd hdone h⟩
    simp [hhp, htp, hsp]
  · rw [if_neg (by simpa using hdone)] at hfsm
    simp only [Application_loop, hb, hpre, hfems, hflag, hfsm]
    simp only [hpPhase, hhp]
    refine ⟨?_, by simp, by simp [htp], by simp [hhp], by simp, fun h => absurd h hdone,
      fun h => ⟨by simp, by simp⟩⟩
    simp [hhp, htp, hsp]

theorem runLoop_nil (sys : Sys) : runLoop sys [] = (sys, []) := rfl

theorem runLoop_cons (sys : Sys) (e : Env) (es : List Env) :
    runLoop sys (e :: es)
      = ((runLoop (Application_loop sys e).1 es).1,
         (Application_loop sys e).2 ++ (runLoop (Application_loop sys e).1 es).2) := rfl

theorem quietEnvs_succ (n d k : Nat) :
    quietEnvs n d (k + 1)
      = { now := n + d, byteIn := none, adc := 0 } :: quietEnvs (n + d) d k := rfl

/-- The ramp phase: from a consistent mid-ramp state with `k` steps
remaining (`k = |target - pot|`), `k` sufficiently spaced quiet cycles
drive the wiper to the target and a final quiet cycle emits exactly one
end-of-command marker. -/
theorem ramp_run (k : Nat) :
    ∀ (sys : Sys) (n d target : Nat),
    sys.app.appState = AppStates.Linear →
    sys.app.cmd_finished_flag = false →
    sys.app.cmd_high_priority = false →
    sys.app.target_pos = target →
    sys.app.steps = ((target : Int) - (sys.pot : Int)).natAbs →
    sys.app.steps = k →
    k ≠ 0 →
    target ≤ 99 → sys.pot ≤ 99 →
    sys.app.linear_cmd_timer.deadline ≤ n + d →
    sys.app.linear_cmd_timer.duration ≤ d →
    ((runLoop sys (quietEnvs n d (k + 1))).1).pot = target
    ∧ ((runLoop sys (quietEnvs n d (k + 1))).1).app.steps = 0
    ∧ ((runLoop sys (quietEnvs n d (k + 1))).1).app.appState = AppStates.Idle
    ∧ ((runLoop sys (quietEnvs n d (k + 1))).2).count Emit.endMarker = 1 := by
  induction k with
  | zero => intro sys n d target _ _ _ _ _ _ hk0; exact absurd rfl hk0
  | succ k ih =>
    intro sys n d target hState hflag hhp htp hdist hsteps _ htle hple hdl hdur
    have hexp : SWTimer_expired sys.app.linear_cmd_timer (n + d) = true := by
      simp only [SWTimer_expired, Bool.or_eq_true, decide_eq_true_eq]
      exact Or.inr hdl
    have hne : sys.app.steps ≠ 0 := by omega
    obtain ⟨hpot1, hsteps1, htp1, hhp1, htimer1, hfin1, hcont1⟩ :=
      loop_linear_cycle sys { now := n + d, byteIn := none, adc := 0 } target
        hState hflag hhp rfl hexp htp htle hple hne hdist
    rw [quietEnvs_succ, runLoop_cons]
    have hcnt1 : ((Application_loop sys { now := n + d, byteIn := none, adc := 0 }).2).count
        Emit.endMarker = 0 := by
      rw [Application_loop_count_end]
      simp [hflag]
    set sys1 := (Application_loop sys { now := n + d, byteIn := none, adc := 0 }).1 with hsys1
    rcases Nat.eq_zero_or_pos k with hk | hk
    · -- last ramp step: one more quiet cycle emits the marker
      subst hk
      have hdone : sys.app.steps - 1 = 0 := by omega
      obtain ⟨hIdle1, hflag1⟩ := hfin1 hdone
      have hpot_target : sys1.pot = target := by
        rw [hpot1]
        by_cases hcmp : sys.pot < target <;> simp only [hcmp, if_true, if_false] <;> omega
      obtain ⟨hIdle2, hflag2, hhp2, hsteps2, hpot2⟩ :=
        loop_idle_cycle sys1 { now := n + d + d, byteIn := none, adc := 0 } hIdle1 hhp1 rfl
      have hcnt2 : ((Application_loop sys1 { now := n + d + d, byteIn := none, adc := 0 }).2).count
          Emit.endMarker = 1 := by
        rw [Application_loop_count_end]
        simp [hflag1]
      rw [quietEnvs_succ, runLoop_cons]
      simp only [quietEnvs, runLoop_nil, List.append_nil, List.count_append]
      refine ⟨?_, ?_, ?_, ?_⟩
      · rw [hpot2, hpot_target]
      · rw [hsteps2, hsteps1, hdone]
      · exact hIdle2
      · rw [hcnt1, hcnt2]
    · -- still ramping: re-establish the invariant and recurse
      have hcont : sys.app.steps - 1 ≠ 0 := by omega
      obtain ⟨hLin1, hflag1⟩ := hcont1 hcont
      have hple1 : sys1.pot ≤ 99 := by
        rw [hpot1]
        by_cases hcmp : sys.pot < target <;> simp only [hcmp, if_true, if_false] <;> omega
      have hdist1 : sys1.app.steps = ((target : Int) - (sys1.pot : Int)).natAbs := by
        rw [hsteps1, hpot1, hdist]
        by_cases hcmp : sys.pot < target <;> simp only [hcmp, if_true, if_false] <;> omega
      have h := ih sys1 (n + d) d target hLin1 hflag1 hhp1 htp1 hdist1
        (by rw [hsteps1, hsteps]; omega) (by omega) htle hple1
        (by rw [htimer1]; simp [SWTimer_start]; omega)
        (by rw [htimer1]; simpa [SWTimer_start] using hdur)
      refine ⟨h.1, h.2.1, h.2.2.1, ?_⟩
      rw [List.count_append, hcnt1, h.2.2.2]

/-- C1: for every valid ramp command `t <target> <duration>` (numeric
target in `[0,99)`, positive numeric duration) dispatched from `Idle`
with the wait timer expired, the run completes: after the dispatch
cycle, one `Executing` cycle and `steps + 1` further quiet cycles spaced
by more than the per-step interval, the wiper position equals the
target, `steps` is `0`, the machine is back in `Idle`, and exactly one
end-of-command marker was emitted over the whole run. -/
theorem c1 (sys : Sys) (arg1 arg2 : List Char) (n0 d a0 target dur S : Nat)
    (hIdle : sys.app.appState = AppStates.Idle)
    (hflag : sys.app.cmd_finished_flag = false)
    (hhp : sys.app.cmd_high_priority = false)
    (hbuf : sys.buf = 't' :: ' ' :: arg1 ++ ' ' :: arg2)
    (hwait : SWTimer_expired sys.app.wait_cmd_timer n0 = true)
    (h1n : arg1 ≠ []) (h1s : ∀ x ∈ arg1, isSep x = false) (h1l : toLowerList arg1 = arg1)
    (h2n : arg2 ≠ []) (h2s : ∀ x ∈ arg2, isSep x = false) (h2l : toLowerList arg2 = arg2)
    (h1num : isNumeric arg1 = true) (h2num : isNumeric arg2 = true)
    (htgt : toInt arg1 = (target : Int)) (htle : target ≤ 98)
    (hdurv : toInt arg2 = (dur : Int)) (hdpos : 0 < dur) (hdlt : dur < 2 ^ 64)
    (hpot99 : sys.pot ≤ 99)
    (hS : S = ((target : Int) - (sys.pot : Int)).natAbs)
    (hd : d = dur / S + 1) :
    ((runLoop sys (({ now := n0, byteIn := some '\n', adc := a0 } : Env)
        :: quietEnvs n0 d (S + 2))).1).pot = target
    ∧ ((runLoop sys (({ now := n0, byteIn := some '\n', adc := a0 } : Env)
        :: quietEnvs n0 d (S + 2))).1).app.steps = 0
    ∧ ((runLoop sys (({ now := n0, byteIn := some '\n', adc := a0 } : Env)
        :: quietEnvs n0 d (S + 2))).1).app.appState = AppStates.Idle
    ∧ ((runLoop sys (({ now := n0, byteIn := some '\n', adc := a0 } : Env)
        :: quietEnvs n0 d (S + 2))).2).count Emit.endMarker = 1 := by
  obtain ⟨st, dt, nv, ems1, hems1, hloop⟩ :=
    loop_idle_dispatch sys { now := n0, byteIn := some '\n', adc := a0 } 't'
      (' ' :: arg1 ++ ' ' :: arg2) hIdle hflag hhp hbuf rfl (by decide)
  have hex := executeCommand_t2_eval
    { sys.app with
      pot_v := a0
      pot_ohms := potOhm sys.pot
      pot_pos := sys.pot
      mes_timestamp := n0
      adc_settling_timer := st
      data_step_timer := dt
      new_value_flag := nv
      cmd_finished_flag := false
      serial_timeout_timer := SWTimer_start sys.app.serial_timeout_timer n0
      command := ('t' :: ' ' :: arg1 ++ ' ' :: arg2) ++ ['\n'] }
    sys.pot n0 arg1 arg2 h1n h1s h1l h2n h2s h2l
  rw [h1num, if_pos rfl] at hex
  rw [htgt] at hex
  rw [if_pos (show (0 : Int) ≤ (target : Int) ∧ (target : Int) < 100 by omega)] at hex
  rw [h2num, if_pos rfl] at hex
  rw [hdurv] at hex
  have hUI : toUInt64 ((dur : Int)) = dur := by
    rw [toUInt64_of_small (Int.natCast_nonneg dur) (by exact_mod_cast hdlt)]
    simp
  rw [hUI] at hex
  rw [if_pos hdpos] at hex
  have hsys1 :
      (((Application_loop sys { now := n0, byteIn := some '\n', adc := a0 }).1).app.appState
        = AppStates.Executing)
      ∧ (((Application_loop sys { now := n0, byteIn := some '\n', adc := a0 }).1).app.cmd_finished_flag
        = false)
      ∧ (((Application_loop sys { now := n0, byteIn := some '\n', adc := a0 }).1).app.cmd_high_priority
        = false)
      ∧ (((Application_loop sys { now := n0, byteIn := some '\n', adc := a0 }).1).app.wait_cmd_timer
        = sys.app.wait_cmd_timer)
      ∧ (((Application_loop sys { now := n0, byteIn := some '\n', adc := a0 }).1).app.steps = S)
      ∧ (((Application_loop sys { now := n0, byteIn := some '\n', adc := a0 }).1).app.target_pos
        = target)
      ∧ (((Application_loop sys { now := n0, byteIn := some '\n', adc := a0 }).1).app.linear_cmd_timer
        = SWTimer_start (SWTimer_construct (dur / S)) n0)
      ∧ (((Application_loop sys { now := n0, byteIn := some '\n', adc := a0 }).1).pot = sys.pot) := by
    rw [hloop]
    simp only [List.cons_append] at hex ⊢
    rw [hex]
    refine ⟨?_, ?_, ?_, ?_, ?_, ?_, ?_, ?_⟩ <;> simp [hS, hhp]
  obtain ⟨hState1, hflag1, hhp1, hwait1, hsteps1, htp1, htimer1, hpot1⟩ := hsys1
  have hc0 : (((Application_loop sys { now := n0, byteIn := some '\n', adc := a0 }).2).count
      Emit.endMarker) = 0 := by
    rw [Application_loop_count_end]
    simp [hflag]
  have hcyc := loop_executing_cycle
    (Application_loop sys { now := n0, byteIn := some '\n', adc := a0 }).1
    { now := n0 + d, byteIn := none, adc := 0 }
    hState1 hflag1 hhp1 rfl
    (by rw [hwait1]; exact SWTimer_expired_mono hwait (Nat.le_add_right n0 d))
  have hc1 : (((Application_loop
      (Application_loop sys { now := n0, byteIn := some '\n', adc := a0 }).1
      { now := n0 + d, byteIn := none, adc := 0 }).2).count Emit.endMarker) = 0 := by
    rw [Application_loop_count_end]
    simp [hflag1]
  have hq2 : quietEnvs n0 d (S + 2)
      = ({ now := n0 + d, byteIn := none, adc := 0 } : Env) :: quietEnvs (n0 + d) d (S + 1) :=
    quietEnvs_succ n0 d (S + 1)
  rw [runLoop_cons, hq2, runLoop_cons]
  by_cases hs0 : S = 0
  · obtain ⟨hI2, hf2, hp2, hst2, hpt2⟩ := hcyc.2 (by rw [hsteps1, hs0])
    have htps : target = sys.pot := by
      have h0 : ((target : Int) - (sys.pot : Int)).natAbs = 0 := by rw [← hS]; exact hs0
      have h1 := Int.natAbs_eq_zero.mp h0
      omega
    subst hs0
    rw [quietEnvs_succ, runLoop_cons]
    have hq0 : quietEnvs (n0 + d + d) d 0 = [] := rfl
    rw [hq0, runLoop_nil]
    obtain ⟨hI3, hf3, hp3, hst3, hpt3⟩ :=
      loop_idle_cycle _ { now := n0 + d + d, byteIn := none, adc := 0 } hI2 hp2 rfl
    have hc2 : (((Application_loop
        (Application_loop
          (Application_loop sys { now := n0, byteIn := some '\n', adc := a0 }).1
          { now := n0 + d, byteIn := none, adc := 0 }).1
        { now := n0 + d + d, byteIn := none, adc := 0 }).2).count Emit.endMarker) = 1 := by
      rw [Application_loop_count_end]
      simp [hf2]
    refine ⟨?_, ?_, ?_, ?_⟩
    · exact hpt3.trans (hpt2.trans (hpot1.trans htps.symm))
    · exact hst3.trans hst2
    · exact hI3
    · simp [List.count_append, hc0, hc1, hc2]
  · obtain ⟨hL2, hf2, hp2, hst2, htp2, htm2, hpt2⟩ := hcyc.1 (by rw [hsteps1]; exact hs0)
    have hramp := ramp_run S _ (n0 + d) d target hL2 hf2 hp2
      (htp2.trans htp1)
      (by rw [hst2, hsteps1, hpt2, hpot1]; exact hS)
      (hst2.trans hsteps1)
      hs0
      (by omega)
      (by rw [hpt2, hpot1]; exact hpot99)
      (by
        rw [htm2, htimer1]
        simp [SWTimer_start, SWTimer_construct]
        rw [hd]
        generalize dur / S = t
        omega)
      (by
        rw [htm2, htimer1]
        simp [SWTimer_start, SWTimer_construct]
        rw [hd]
        generalize dur / S = t
        omega)
    refine ⟨hramp.1, hramp.2.1, hramp.2.2.1, ?_⟩
    simp [List.count_append, hc0, hc1, hramp.2.2.2]

set_option maxRecDepth 20000 in
/-- Witness for C1: `t 2 10` sent from Idle at position 0 (`steps = 2`,
per-step interval `10 / 2 = 5`, quiet cycles spaced 6 apart): after the
dispatch cycle and 4 quiet cycles the wiper is at 2, `steps = 0`, the
machine is Idle again and exactly one end-of-command marker was
emitted. -/
theorem c1_witness :
    ((runLoop
        { app := Application_construct
          pot := 0
          old_pot_pos := 0
          buf := ['t', ' ', '2', ' ', '1', '0'] }
        (({ now := 0, byteIn := some '\n', adc := 0 } : Env) :: quietEnvs 0 6 (2 + 2))).1).pot = 2
    ∧ ((runLoop
        { app := Application_construct
          pot := 0
          old_pot_pos := 0
          buf := ['t', ' ', '2', ' ', '1', '0'] }
        (({ now := 0, byteIn := some '\n', adc := 0 } : Env) :: quietEnvs 0 6 (2 + 2))).1).app.steps
        = 0
    ∧ ((runLoop
        { app := Application_construct
          pot := 0
          old_pot_pos := 0
          buf := ['t', ' ', '2', ' ', '1', '0'] }
        (({ now := 0, byteIn := some '\n', adc := 0 } : Env) :: quietEnvs 0 6 (2 + 2))).1).app.appState
        = AppStates.Idle
    ∧ ((runLoop
        { app := Application_construct
          pot := 0
          old_pot_pos := 0
          buf := ['t', ' ', '2', ' ', '1', '0'] }
        (({ now := 0, byteIn := some '\n', adc := 0 } : Env) :: quietEnvs 0 6 (2 + 2))).2).count
        Emit.endMarker = 1 :=
  c1
    { app := Application_construct
      pot := 0
      old_pot_pos := 0
      buf := ['t', ' ', '2', ' ', '1', '0'] }
    ['2'] ['1', '0'] 0 6 0 2 10 2
    rfl rfl rfl rfl (by decide)
    (by decide) (by decide) (by decide)
    (by decide) (by decide) (by decide)
    (by decide) (by decide)
    (by decide) (by decide)
    (by decide) (by decide) (by decide)
    (by decide)
    (by decide)
    (by decide)
